import Mathlib

/-!
The built-in allocator facade of LVGL (src/misc/lv_malloc_builtin.c).

A shallow embedding of the pool registry, the allocation facade with its
watermark counters, the usage monitor and the integrity validator, together
with theorems about them.

The allocator engine (lv_tlsf.c) is not part of the embedded file: it is taken
as a parameter, a record of functions over an arbitrary engine state, and
every result holds for all engines.  The static variables of the C file
(tlsf, cur_used, max_used, pool_ll) become the fields of an explicit state.
The nodes of the list pool_ll live in the heap the file manages: the list
functions take them with lv_malloc and give them back with lv_free, which are
the facade of this file, so that every node moves the counters and the engine
like any other allocation.
-/

namespace LvMallocBuiltin

/-! ## Machine integers, pointers -/

/-- Number of values of a uint32_t: cur_used, max_used and the size and count
fields of lv_mem_monitor_t wrap around at this modulus. -/
def UINT32_MOD : Nat := 4294967296

/-- Number of values of a uint8_t (the two percentage fields of
lv_mem_monitor_t). -/
def UINT8_MOD : Nat := 256

/-- An address; 0 is NULL. -/
abbrev Ptr := Nat

/-- A pool handle as handed out by the engine (a pointer); 0 is NULL. -/
abbrev lv_pool_t := Nat

/-- The macro LV_MAX(a, b) of lv_math.h: the larger of its two arguments. -/
def LV_MAX (a b : Nat) : Nat := if a > b then a else b

/-- Result codes of lv_res_t. -/
inductive lv_res_t where
  | LV_RES_INV
  | LV_RES_OK
  deriving DecidableEq, Repr

/-! ## The engine, as a parameter -/

/-- One block as the engine reports it to a walker: the three first arguments
of the callback (ptr, size, used).  The flag is a C int: non-zero means used. -/
structure Block where
  ptr : Ptr
  size : Nat
  used : Int
  deriving DecidableEq, Repr

/-- The functions of lv_tlsf.h that lv_malloc_builtin.c calls, over an
arbitrary engine state T (the control structure and the memory behind the
static handle tlsf).  Functions that change the heap return the new engine
state next to their C result; the enumeration is read-only and only produces
the blocks with which the walker is called, in order. -/
structure TlsfEngine (T : Type) where
  /-- lv_tlsf_create_with_pool(mem, bytes): a fresh engine instance. -/
  lv_tlsf_create_with_pool : Ptr → Nat → T
  /-- lv_tlsf_get_pool(tlsf): the pool created together with the instance. -/
  lv_tlsf_get_pool : T → lv_pool_t
  /-- lv_tlsf_destroy(tlsf). -/
  lv_tlsf_destroy : T → T
  /-- lv_tlsf_add_pool(tlsf, mem, bytes): the new pool, NULL when refused. -/
  lv_tlsf_add_pool : T → Ptr → Nat → T × lv_pool_t
  /-- lv_tlsf_remove_pool(tlsf, pool). -/
  lv_tlsf_remove_pool : T → lv_pool_t → T
  /-- lv_tlsf_malloc(tlsf, size): the allocated pointer, NULL on failure. -/
  lv_tlsf_malloc : T → Nat → T × Ptr
  /-- lv_tlsf_realloc(tlsf, p, new_size): the new pointer, NULL on failure. -/
  lv_tlsf_realloc : T → Ptr → Nat → T × Ptr
  /-- lv_tlsf_free(tlsf, p): the size of the block that was released. -/
  lv_tlsf_free : T → Ptr → T × Nat
  /-- lv_tlsf_walk_pool(pool, walker, user): the blocks the walker is called
  with, in the order of the calls. -/
  lv_tlsf_walk_pool : T → lv_pool_t → List Block
  /-- lv_tlsf_check(tlsf): non-zero when the heap is corrupted. -/
  lv_tlsf_check : T → T × Int
  /-- lv_tlsf_check_pool(pool): non-zero when the pool is corrupted. -/
  lv_tlsf_check_pool : T → lv_pool_t → T × Int

/-- The configuration the file is built with: the work memory
(LV_MEM_ADR, or the address of the static array work_mem_int, or what
LV_MEM_POOL_ALLOC returns), its size LV_MEM_SIZE, and the number of bytes a
node of the list pool_ll takes, which is what _lv_ll_ins_tail requests for a
node: the size of an lv_pool_t rounded up to the word size plus the two link
pointers (24 with LV_ARCH_64, 12 otherwise). -/
structure Config where
  work_mem : Ptr
  LV_MEM_SIZE : Nat
  ll_node_bytes : Nat
  deriving DecidableEq, Repr

/-! ## The static variables -/

/-- A node of the linked list pool_ll: its address, which is the pointer
pool_p the list functions hand out, and the pool handle stored in it. -/
structure PoolNode where
  node : Ptr
  pool : lv_pool_t
  deriving DecidableEq, Repr

/-- The four static variables of the file.  The linked list pool_ll is kept
as the list of its nodes, head first. -/
structure State (T : Type) where
  tlsf : T
  cur_used : Nat
  max_used : Nat
  pool_ll : List PoolNode
  deriving DecidableEq

/-- The registry: the pool handles stored in the nodes of pool_ll, in the
order of the list. -/
def State.pools {T : Type} (st : State T) : List lv_pool_t :=
  st.pool_ll.map PoolNode.pool

/-- The type lv_mem_monitor_t.  Its declaration (lv_mem.h) is not among the
embedded sources: the size and count fields are 32-bit unsigned, as cur_used
and max_used are, and the two percentages used_pct and frag_pct are uint8_t. -/
structure lv_mem_monitor_t where
  total_size : Nat
  free_cnt : Nat
  free_size : Nat
  free_biggest_size : Nat
  used_cnt : Nat
  max_used : Nat
  used_pct : Nat
  frag_pct : Nat
  deriving DecidableEq, Repr

/-! ## The allocation facade -/

/-- The function lv_malloc_builtin: the size is added to cur_used (a uint32_t),
max_used is raised to it, and then the engine is called; its result is
returned as it is. -/
def lv_malloc_builtin {T : Type} (e : TlsfEngine T) (st : State T)
    (size : Nat) : State T × Ptr :=
  let cur_used := (st.cur_used + size) % UINT32_MOD
  let max_used := LV_MAX cur_used st.max_used
  let r := e.lv_tlsf_malloc st.tlsf size
  ({ tlsf := r.1, cur_used := cur_used, max_used := max_used, pool_ll := st.pool_ll }, r.2)

/-- The function lv_realloc_builtin: the call is handed to the engine. -/
def lv_realloc_builtin {T : Type} (e : TlsfEngine T) (st : State T)
    (p : Ptr) (new_size : Nat) : State T × Ptr :=
  let r := e.lv_tlsf_realloc st.tlsf p new_size
  ({ st with tlsf := r.1 }, r.2)

/-- The function lv_free_builtin (LV_MEM_ADD_JUNK is 0): the engine releases
the block and reports its size, which is taken off cur_used, down to 0 at
most. -/
def lv_free_builtin {T : Type} (e : TlsfEngine T) (st : State T)
    (p : Ptr) : State T :=
  let r := e.lv_tlsf_free st.tlsf p
  let size := r.2
  if st.cur_used > size then
    { st with tlsf := r.1, cur_used := st.cur_used - size }
  else
    { st with tlsf := r.1, cur_used := 0 }

/-- Modelled from the spec: lv_mem.c is absent.  The file is compiled only
with LV_USE_BUILTIN_MALLOC, where the public allocate is the facade: lv_malloc
hands the request to lv_malloc_builtin. -/
def lv_malloc {T : Type} (e : TlsfEngine T) (st : State T) (size : Nat) :
    State T × Ptr :=
  lv_malloc_builtin e st size

/-- Modelled from the spec: lv_mem.c is absent.  The public release is the
facade: lv_free hands the pointer to lv_free_builtin. -/
def lv_free {T : Type} (e : TlsfEngine T) (st : State T) (p : Ptr) : State T :=
  lv_free_builtin e st p

/-! ## The pool registry (lv_ll)

The generic linked list lv_ll.c is not part of the embedded file.  Its nodes
are taken from, and given back to, the heap this file manages, through
lv_malloc and lv_free. -/

/-- Modelled from the spec: lv_ll.c is absent.  This is _lv_ll_init: the list
is empty afterwards. -/
def ll_init : List PoolNode := []

/-- Modelled from the spec: lv_ll.c is absent ("manual node allocation from
the same heap it manages").  This is the request of _lv_ll_ins_tail for the
memory of a new node; the result is the state after the request and the
address of the node, NULL when the request failed. -/
def ll_node_alloc {T : Type} (cfg : Config) (e : TlsfEngine T) (st : State T) :
    State T × Ptr :=
  lv_malloc e st cfg.ll_node_bytes

/-- Modelled from the spec: lv_ll.c is absent (an "insertion-ordered
collection of pool handles").  This is the linking of a new node at the tail
by _lv_ll_ins_tail together with the store of the handle into the node by the
caller. -/
def ll_push {T : Type} (st : State T) (node : Ptr) (pool : lv_pool_t) : State T :=
  { st with pool_ll := st.pool_ll ++ [{ node := node, pool := pool }] }

/-- Modelled from the spec: lv_ll.c is absent.  This is _lv_ll_clear: every
node, from the head on, is unlinked and released with lv_free; the list is
empty afterwards. -/
def ll_clear {T : Type} (e : TlsfEngine T) (st : State T) : State T :=
  { st.pool_ll.foldl (fun s n => lv_free e s n.node) st with pool_ll := [] }

/-! ## The public functions -/

/-- The function lv_mem_init_builtin: creates the engine over the work memory,
initialises the list, takes a node for the first pool and stores the pool of
the engine in it.  LV_ASSERT_MALLOC stops the program when there is no node:
the result is none.  The counters are not assigned; they move with the
request for the node. -/
def lv_mem_init_builtin {T : Type} (cfg : Config) (e : TlsfEngine T)
    (st : State T) : Option (State T) :=
  let st1 : State T :=
    { tlsf := e.lv_tlsf_create_with_pool cfg.work_mem cfg.LV_MEM_SIZE
      cur_used := st.cur_used
      max_used := st.max_used
      pool_ll := ll_init }
  let r := ll_node_alloc cfg e st1
  if r.2 = 0 then none
  else some (ll_push r.1 r.2 (e.lv_tlsf_get_pool r.1.tlsf))

/-- The function lv_mem_deinit_builtin: clears the list, destroys the engine
and initialises again. -/
def lv_mem_deinit_builtin {T : Type} (cfg : Config) (e : TlsfEngine T)
    (st : State T) : Option (State T) :=
  let st1 := ll_clear e st
  lv_mem_init_builtin cfg e { st1 with tlsf := e.lv_tlsf_destroy st1.tlsf }

/-- The function lv_mem_builtin_add_pool: asks the engine for a new pool and,
unless it is NULL, takes a node at the tail of the list and stores the pool in
it.  LV_ASSERT_MALLOC stops the program when there is no node: the result is
none. -/
def lv_mem_builtin_add_pool {T : Type} (cfg : Config) (e : TlsfEngine T)
    (st : State T) (mem : Ptr) (bytes : Nat) : Option (State T × lv_pool_t) :=
  let new_pool := e.lv_tlsf_add_pool st.tlsf mem bytes
  if new_pool.2 = 0 then
    some ({ st with tlsf := new_pool.1 }, 0)
  else
    let r := ll_node_alloc cfg e { st with tlsf := new_pool.1 }
    if r.2 = 0 then none
    else some (ll_push r.1 r.2 new_pool.2, new_pool.2)

/-- The loop of lv_mem_builtin_remove_pool over the nodes still to be read:
the result is none when no node holds the handle, and otherwise the first node
that holds it together with the list from which it is unlinked. -/
def remove_pool_scan (pool : lv_pool_t) :
    List PoolNode → Option (PoolNode × List PoolNode)
  | [] => none
  | n :: rest =>
    if n.pool = pool then some (n, rest)
    else
      match remove_pool_scan pool rest with
      | none => none
      | some r => some (r.1, n :: r.2)

/-- The function lv_mem_builtin_remove_pool: at the first node holding the
handle, the node is unlinked, released with lv_free, and then the engine
removes the pool; when no node holds it, only a warning is logged. -/
def lv_mem_builtin_remove_pool {T : Type} (e : TlsfEngine T) (st : State T)
    (pool : lv_pool_t) : State T :=
  match remove_pool_scan pool st.pool_ll with
  | some r =>
    let st1 := lv_free e { st with pool_ll := r.2 } r.1.node
    { st1 with tlsf := e.lv_tlsf_remove_pool st1.tlsf pool }
  | none => st

/-- The all-zero structure left by lv_memset(mon_p, 0, sizeof(lv_mem_monitor_t)). -/
def mon_zero : lv_mem_monitor_t :=
  { total_size := 0, free_cnt := 0, free_size := 0, free_biggest_size := 0,
    used_cnt := 0, max_used := 0, used_pct := 0, frag_pct := 0 }

/-- The callback lv_mem_walker, called once per block with the monitor as its
user data. -/
def lv_mem_walker (mon : lv_mem_monitor_t) (b : Block) : lv_mem_monitor_t :=
  let mon1 := { mon with total_size := (mon.total_size + b.size) % UINT32_MOD }
  if b.used ≠ 0 then
    { mon1 with used_cnt := (mon1.used_cnt + 1) % UINT32_MOD }
  else
    let mon2 := { mon1 with
      free_cnt := (mon1.free_cnt + 1) % UINT32_MOD
      free_size := (mon1.free_size + b.size) % UINT32_MOD }
    if b.size > mon2.free_biggest_size then
      { mon2 with free_biggest_size := b.size % UINT32_MOD }
    else mon2

/-- The first half of lv_mem_monitor_builtin: the structure is zeroed, whatever
it held, and the pool of every node of the list is walked in list order. -/
def lv_mem_monitor_walk {T : Type} (e : TlsfEngine T) (st : State T)
    (_mon_p : lv_mem_monitor_t) : lv_mem_monitor_t :=
  st.pools.foldl
    (fun mon pool => (e.lv_tlsf_walk_pool st.tlsf pool).foldl lv_mem_walker mon)
    mon_zero

/-- The assignment to used_pct: 100 - (100U * free_size) / total_size, in
32-bit unsigned arithmetic, stored into a uint8_t.  The divisor is not 0. -/
def used_pct_of (free_size total_size : Nat) : Nat :=
  ((100 + UINT32_MOD - (100 * free_size) % UINT32_MOD / total_size) % UINT32_MOD)
    % UINT8_MOD

/-- The two assignments to frag_pct when free_size > 0: first
free_biggest_size * 100U / free_size stored into the uint8_t field, then 100
minus the field stored into it again. -/
def frag_pct_of (free_biggest_size free_size : Nat) : Nat :=
  let frag := ((free_biggest_size * 100) % UINT32_MOD / free_size) % UINT8_MOD
  (100 + UINT8_MOD - frag) % UINT8_MOD

/-- The function lv_mem_monitor_builtin.  The argument is the previous
content of the structure behind mon_p, the result its new content.  The
division by total_size is not guarded: with total_size = 0 the function
divides by zero and there is no result (none). -/
def lv_mem_monitor_builtin {T : Type} (e : TlsfEngine T) (st : State T)
    (mon_p : lv_mem_monitor_t) : Option lv_mem_monitor_t :=
  let mon := lv_mem_monitor_walk e st mon_p
  if mon.total_size = 0 then none
  else
    let mon1 := { mon with used_pct := used_pct_of mon.free_size mon.total_size }
    let mon2 :=
      if mon1.free_size > 0 then
        { mon1 with frag_pct := frag_pct_of mon1.free_biggest_size mon1.free_size }
      else
        { mon1 with frag_pct := 0 }
    some { mon2 with max_used := st.max_used }

/-- The loop of lv_mem_test_builtin over the nodes still to be read: each pool
is checked in turn and the first non-zero result ends the function. -/
def test_pools_scan {T : Type} (e : TlsfEngine T) : T → List lv_pool_t → T × lv_res_t
  | tlsf, [] => (tlsf, lv_res_t.LV_RES_OK)
  | tlsf, p :: rest =>
    let r := e.lv_tlsf_check_pool tlsf p
    if r.2 ≠ 0 then (r.1, lv_res_t.LV_RES_INV)
    else test_pools_scan e r.1 rest

/-- The function lv_mem_test_builtin: the check of the whole heap first, then
the check of the pool of each node of the list. -/
def lv_mem_test_builtin {T : Type} (e : TlsfEngine T) (st : State T) :
    State T × lv_res_t :=
  let r := e.lv_tlsf_check st.tlsf
  if r.2 ≠ 0 then ({ st with tlsf := r.1 }, lv_res_t.LV_RES_INV)
  else
    let r1 := test_pools_scan e r.1 st.pools
    ({ st with tlsf := r1.1 }, r1.2)

/-! ## Sequences of calls -/

/-- A call of one of the three allocation entry points. -/
inductive FacadeCall where
  | malloc (size : Nat)
  | realloc (p : Ptr) (new_size : Nat)
  | free (p : Ptr)
  deriving DecidableEq, Repr

/-- The state after one call of an allocation entry point. -/
def FacadeCall.apply {T : Type} (e : TlsfEngine T) (st : State T) :
    FacadeCall → State T
  | FacadeCall.malloc size => (lv_malloc_builtin e st size).1
  | FacadeCall.realloc p new_size => (lv_realloc_builtin e st p new_size).1
  | FacadeCall.free p => lv_free_builtin e st p

/-- The state after a sequence of calls of the allocation entry points. -/
def facade_run {T : Type} (e : TlsfEngine T) (st : State T)
    (calls : List FacadeCall) : State T :=
  calls.foldl (fun s c => c.apply e s) st

/-- The states passed through by a sequence of calls, the first state
included, in the order of the calls. -/
def facade_history {T : Type} (e : TlsfEngine T) (st : State T) :
    List FacadeCall → List (State T)
  | [] => [st]
  | c :: calls => st :: facade_history e (c.apply e st) calls

/-- A call of any public function of the file. -/
inductive Call where
  | facade (c : FacadeCall)
  | add_pool (mem : Ptr) (bytes : Nat)
  | remove_pool (pool : lv_pool_t)
  | monitor (mon_p : lv_mem_monitor_t)
  | test
  | init
  | deinit
  deriving DecidableEq, Repr

/-- The state after one call of a public function; none when the call has no
result (the monitor dividing by zero, LV_ASSERT_MALLOC stopping the program). -/
def Call.apply {T : Type} (cfg : Config) (e : TlsfEngine T) (st : State T) :
    Call → Option (State T)
  | Call.facade c => some (c.apply e st)
  | Call.add_pool mem bytes =>
    match lv_mem_builtin_add_pool cfg e st mem bytes with
    | some r => some r.1
    | none => none
  | Call.remove_pool pool => some (lv_mem_builtin_remove_pool e st pool)
  | Call.monitor mon_p =>
    match lv_mem_monitor_builtin e st mon_p with
    | some _ => some st
    | none => none
  | Call.test => some (lv_mem_test_builtin e st).1
  | Call.init => lv_mem_init_builtin cfg e st
  | Call.deinit => lv_mem_deinit_builtin cfg e st

/-! ## A small engine for concrete evaluations

The theorems hold for every engine.  To evaluate the functions of the file at
concrete inputs an engine is needed; this one hands out memory as long as a
byte budget lasts, reports the block layout it is given, and keeps a log of
the pools it was asked to remove and to check. -/

/-- The state of the small engine. -/
structure ToyHeap where
  avail : Nat
  next : Ptr
  live : List (Ptr × Nat)
  layout : List (lv_pool_t × List Block)
  removed : List lv_pool_t
  checked : List lv_pool_t
  corrupt : List lv_pool_t
  heap_corrupt : Bool
  deriving DecidableEq, Repr

/-- The blocks the small engine holds for a pool. -/
def ToyHeap.blocks_of (h : ToyHeap) (pool : lv_pool_t) : List Block :=
  match h.layout.find? (fun x => x.1 == pool) with
  | some x => x.2
  | none => []

/-- The size the small engine has recorded for a live pointer, 0 if none. -/
def ToyHeap.size_of (h : ToyHeap) (p : Ptr) : Nat :=
  match h.live.find? (fun x => x.1 == p) with
  | some x => x.2
  | none => 0

/-- The small engine. -/
def toyEngine : TlsfEngine ToyHeap where
  lv_tlsf_create_with_pool := fun mem bytes =>
    { avail := bytes, next := mem + 16, live := [],
      layout := [(mem, [{ ptr := mem, size := bytes, used := 0 }])],
      removed := [], checked := [], corrupt := [], heap_corrupt := false }
  lv_tlsf_get_pool := fun h =>
    match h.layout with
    | [] => 0
    | x :: _ => x.1
  lv_tlsf_destroy := fun h => h
  lv_tlsf_add_pool := fun h mem bytes =>
    if mem = 0 ∨ bytes < 16 then (h, 0)
    else
      ({ h with
          avail := h.avail + bytes
          layout := h.layout ++ [(mem, [{ ptr := mem, size := bytes, used := 0 }])] },
        mem)
  lv_tlsf_remove_pool := fun h pool =>
    { h with
        layout := h.layout.filter (fun x => x.1 != pool)
        removed := h.removed ++ [pool] }
  lv_tlsf_malloc := fun h size =>
    if size ≤ h.avail then
      ({ h with
          avail := h.avail - size
          next := h.next + size
          live := (h.next, size) :: h.live },
        h.next)
    else (h, 0)
  lv_tlsf_realloc := fun h p new_size =>
    if new_size ≤ h.avail + h.size_of p then
      ({ h with
          avail := h.avail + h.size_of p - new_size
          live := (p, new_size) :: h.live.filter (fun x => x.1 != p) },
        p)
    else (h, 0)
  lv_tlsf_free := fun h p =>
    ({ h with
        avail := h.avail + h.size_of p
        live := h.live.filter (fun x => x.1 != p) },
      h.size_of p)
  lv_tlsf_walk_pool := fun h pool => h.blocks_of pool
  lv_tlsf_check := fun h => (h, if h.heap_corrupt then 1 else 0)
  lv_tlsf_check_pool := fun h pool =>
    ({ h with checked := h.checked ++ [pool] },
      if pool ∈ h.corrupt then 1 else 0)

/-- A configuration with a work memory of 1024 bytes at address 4096 and list
nodes of 24 bytes. -/
def cfg1024 : Config := { work_mem := 4096, LV_MEM_SIZE := 1024, ll_node_bytes := 24 }

/-- The static variables at program start: all zero, no engine yet. -/
def toyStart : State ToyHeap :=
  { tlsf :=
      { avail := 0, next := 0, live := [], layout := [], removed := [],
        checked := [], corrupt := [], heap_corrupt := false }
    cur_used := 0
    max_used := 0
    pool_ll := [] }

/-- The state after lv_mem_init_builtin with the 1024-byte work memory, called
at program start. -/
def toyInit : State ToyHeap :=
  (lv_mem_init_builtin cfg1024 toyEngine toyStart).getD toyStart

/-- The state after init and a successful allocation of 100 bytes. -/
def toyAlloc100 : State ToyHeap := (lv_malloc_builtin toyEngine toyInit 100).1

/-- A state of the small engine with the given block layout, registry and
counters. -/
def toyState (layout : List (lv_pool_t × List Block)) (pool_ll : List PoolNode)
    (cur_used max_used : Nat) : State ToyHeap :=
  { tlsf :=
      { avail := 0, next := 0, live := [], layout := layout, removed := [],
        checked := [], corrupt := [], heap_corrupt := false }
    cur_used := cur_used
    max_used := max_used
    pool_ll := pool_ll }


/-- The state after init and the addition of a second pool of 512 bytes at
address 8192. -/
def toyTwoPools : State ToyHeap :=
  match lv_mem_builtin_add_pool cfg1024 toyEngine toyInit 8192 512 with
  | some r => r.1
  | none => toyInit

/-- The state after init and the removal of the primary pool: the registry is
empty. -/
def toyNoPool : State ToyHeap := lv_mem_builtin_remove_pool toyEngine toyInit 4096

/-- A pool with two free blocks of 4294967246 and 100 bytes and a used block
of 4294967266 bytes: the 32-bit sums of the walk wrap around. -/
def toyWrapped : State ToyHeap :=
  toyState
    [(4096, [{ ptr := 4096, size := 4294967246, used := 0 },
             { ptr := 4294971342, size := 100, used := 0 },
             { ptr := 4294971442, size := 4294967266, used := 1 }])]
    [{ node := 64, pool := 4096 }] 0 0

/-- A pool of five blocks of 64 bytes of which those with an odd index are
free: the free memory is split into two blocks that cannot merge. -/
def toySplit : State ToyHeap :=
  toyState
    [(4096, [{ ptr := 4096, size := 64, used := 1 },
             { ptr := 4160, size := 64, used := 0 },
             { ptr := 4224, size := 64, used := 1 },
             { ptr := 4288, size := 64, used := 0 },
             { ptr := 4352, size := 64, used := 1 }])]
    [{ node := 64, pool := 4096 }] 192 320

/-! ## Reference notions for the statements -/

/-- The invariant of the watermark counters: cur_used is at most max_used, and
max_used is a 32-bit value. -/
def CountersOk {T : Type} (st : State T) : Prop :=
  st.cur_used ≤ st.max_used ∧ st.max_used < UINT32_MOD

/-- The blocks of all registered pools, pool after pool in the order of the
registry, each pool in the order in which the engine enumerates it. -/
def registry_blocks {T : Type} (e : TlsfEngine T) (st : State T) : List Block :=
  st.pools.flatMap (fun pool => e.lv_tlsf_walk_pool st.tlsf pool)

/-- The used blocks of a list of blocks. -/
def used_blocks (bs : List Block) : List Block := bs.filter (fun b => b.used != 0)

/-- The free blocks of a list of blocks. -/
def free_blocks (bs : List Block) : List Block := bs.filter (fun b => b.used == 0)

/-- The sum of the sizes of a list of blocks, as a natural number. -/
def sum_sizes (bs : List Block) : Nat := (bs.map Block.size).sum

/-- The largest size among a list of blocks, 0 for the empty list. -/
def max_size (bs : List Block) : Nat := (bs.map Block.size).foldl max 0

/-- The engine state after the per-pool check has been called for every pool
of a list, in the order of the list, starting from a given engine state. -/
def pool_check_state {T : Type} (e : TlsfEngine T) : T → List lv_pool_t → T
  | tlsf, [] => tlsf
  | tlsf, p :: rest => pool_check_state e (e.lv_tlsf_check_pool tlsf p).1 rest

/-- The results of the per-pool check called for every pool of a list, in the
order of the list, starting from a given engine state. -/
def pool_check_results {T : Type} (e : TlsfEngine T) : T → List lv_pool_t → List Int
  | _, [] => []
  | tlsf, p :: rest =>
    (e.lv_tlsf_check_pool tlsf p).2
      :: pool_check_results e (e.lv_tlsf_check_pool tlsf p).1 rest

/-- A state of the small engine with three registered pools of which the
second one, 8192, is corrupted. -/
def toyCorrupt : State ToyHeap :=
  { tlsf :=
      { avail := 0, next := 0, live := [], layout := [], removed := [],
        checked := [], corrupt := [8192], heap_corrupt := false }
    cur_used := 0
    max_used := 0
    pool_ll :=
      [{ node := 64, pool := 4096 }, { node := 96, pool := 8192 },
        { node := 128, pool := 12288 }] }

/-- A state of the small engine with three registered pools whose whole-heap
check fails. -/
def toyHeapCorrupt : State ToyHeap :=
  { tlsf :=
      { avail := 0, next := 0, live := [], layout := [], removed := [],
        checked := [], corrupt := [], heap_corrupt := true }
    cur_used := 0
    max_used := 0
    pool_ll :=
      [{ node := 64, pool := 4096 }, { node := 96, pool := 8192 },
        { node := 128, pool := 12288 }] }

/-- The small engine with block sizes rounded up to a multiple of 8 bytes:
lv_tlsf_free may report more than what was requested. -/
def toyEngineRounding : TlsfEngine ToyHeap :=
  { toyEngine with
    lv_tlsf_free := fun h p =>
      ({ h with
          avail := h.avail + h.size_of p
          live := h.live.filter (fun x => x.1 != p) },
        (h.size_of p + 7) / 8 * 8) }

/-- The static variables at program start for a given engine state and
registry: both counters are 0. -/
def start_state {T : Type} (tlsf : T) (pool_ll : List PoolNode) : State T :=
  { tlsf := tlsf, cur_used := 0, max_used := 0, pool_ll := pool_ll }

/-- The largest value of cur_used among a list of states, 0 for the empty
list. -/
def max_cur_used {T : Type} (states : List (State T)) : Nat :=
  (states.map (fun s => s.cur_used)).foldl max 0

/-- The state after init with both counters put back to 0. -/
def toyZero : State ToyHeap := start_state toyInit.tlsf toyInit.pool_ll

/-- A sequence of allocation calls: two allocations, the release of the first
block, a reallocation of the second and a third allocation. -/
def toyFacadeCalls : List FacadeCall :=
  [FacadeCall.malloc 100, FacadeCall.malloc 50, FacadeCall.free 4136,
    FacadeCall.realloc 4236 60, FacadeCall.malloc 20]

/-- The sum of the sizes the engine reports when the nodes of a list are
released one after the other, starting from a given engine state. -/
def clear_reclaimed {T : Type} (e : TlsfEngine T) : T → List PoolNode → Nat
  | _, [] => 0
  | tlsf, n :: rest =>
    (e.lv_tlsf_free tlsf n.node).2
      + clear_reclaimed e (e.lv_tlsf_free tlsf n.node).1 rest

/-- The engine state after the nodes of a list have been released one after
the other, starting from a given engine state. -/
def clear_engine {T : Type} (e : TlsfEngine T) : T → List PoolNode → T
  | tlsf, [] => tlsf
  | tlsf, n :: rest => clear_engine e (e.lv_tlsf_free tlsf n.node).1 rest

/-! ## Shared lemmas -/

theorem LV_MAX_eq_max (a b : Nat) : LV_MAX a b = max a b := by
  unfold LV_MAX
  split <;> omega

theorem lv_malloc_builtin_cur_used {T : Type} (e : TlsfEngine T) (st : State T)
    (size : Nat) :
    (lv_malloc_builtin e st size).1.cur_used = (st.cur_used + size) % UINT32_MOD := rfl

theorem lv_malloc_builtin_max_used {T : Type} (e : TlsfEngine T) (st : State T)
    (size : Nat) :
    (lv_malloc_builtin e st size).1.max_used
      = max ((st.cur_used + size) % UINT32_MOD) st.max_used := by
  show LV_MAX _ _ = _
  exact LV_MAX_eq_max _ _

theorem lv_malloc_builtin_ptr {T : Type} (e : TlsfEngine T) (st : State T)
    (size : Nat) :
    (lv_malloc_builtin e st size).2 = (e.lv_tlsf_malloc st.tlsf size).2 := rfl

theorem lv_free_builtin_cur_used {T : Type} (e : TlsfEngine T) (st : State T)
    (p : Ptr) :
    (lv_free_builtin e st p).cur_used = st.cur_used - (e.lv_tlsf_free st.tlsf p).2 := by
  unfold lv_free_builtin
  dsimp only
  split
  · rfl
  · show 0 = _
    omega

theorem lv_free_builtin_max_used {T : Type} (e : TlsfEngine T) (st : State T)
    (p : Ptr) :
    (lv_free_builtin e st p).max_used = st.max_used := by
  unfold lv_free_builtin
  dsimp only
  split <;> rfl

theorem lv_realloc_builtin_counters {T : Type} (e : TlsfEngine T) (st : State T)
    (p : Ptr) (new_size : Nat) :
    (lv_realloc_builtin e st p new_size).1.cur_used = st.cur_used
      ∧ (lv_realloc_builtin e st p new_size).1.max_used = st.max_used :=
  ⟨rfl, rfl⟩

theorem CountersOk_apply {T : Type} (e : TlsfEngine T) (st : State T)
    (c : FacadeCall) (h : CountersOk st) : CountersOk (c.apply e st) := by
  obtain ⟨h1, h2⟩ := h
  cases c with
  | malloc size =>
    show (lv_malloc_builtin e st size).1.cur_used ≤ (lv_malloc_builtin e st size).1.max_used
      ∧ (lv_malloc_builtin e st size).1.max_used < UINT32_MOD
    rw [lv_malloc_builtin_cur_used, lv_malloc_builtin_max_used]
    have h3 : (st.cur_used + size) % UINT32_MOD < UINT32_MOD :=
      Nat.mod_lt _ (by decide)
    exact ⟨le_max_left _ _, max_lt h3 h2⟩
  | realloc p new_size => exact ⟨h1, h2⟩
  | free p =>
    show (lv_free_builtin e st p).cur_used ≤ (lv_free_builtin e st p).max_used
      ∧ (lv_free_builtin e st p).max_used < UINT32_MOD
    rw [lv_free_builtin_cur_used, lv_free_builtin_max_used]
    exact ⟨by omega, h2⟩

theorem CountersOk_run {T : Type} (e : TlsfEngine T) (calls : List FacadeCall) :
    ∀ st : State T, CountersOk st → CountersOk (facade_run e st calls) := by
  induction calls with
  | nil => intro st h; exact h
  | cons c calls ih =>
    intro st h
    show CountersOk (facade_run e (c.apply e st) calls)
    exact ih _ (CountersOk_apply e st c h)

theorem max_used_le_apply {T : Type} (e : TlsfEngine T) (st : State T)
    (c : FacadeCall) : st.max_used ≤ (c.apply e st).max_used := by
  cases c with
  | malloc size =>
    show st.max_used ≤ (lv_malloc_builtin e st size).1.max_used
    rw [lv_malloc_builtin_max_used]
    exact le_max_right _ _
  | realloc p new_size => exact le_refl _
  | free p =>
    show st.max_used ≤ (lv_free_builtin e st p).max_used
    rw [lv_free_builtin_max_used]

theorem lv_free_builtin_tlsf {T : Type} (e : TlsfEngine T) (st : State T)
    (p : Ptr) :
    (lv_free_builtin e st p).tlsf = (e.lv_tlsf_free st.tlsf p).1 := by
  unfold lv_free_builtin
  dsimp only
  split <;> rfl

theorem lv_free_builtin_pool_ll {T : Type} (e : TlsfEngine T) (st : State T)
    (p : Ptr) :
    (lv_free_builtin e st p).pool_ll = st.pool_ll := by
  unfold lv_free_builtin
  dsimp only
  split <;> rfl

theorem free_nodes_fold {T : Type} (e : TlsfEngine T) (nodes : List PoolNode) :
    ∀ st : State T,
      (nodes.foldl (fun s n => lv_free e s n.node) st).cur_used
          = st.cur_used - clear_reclaimed e st.tlsf nodes
        ∧ (nodes.foldl (fun s n => lv_free e s n.node) st).max_used = st.max_used
        ∧ (nodes.foldl (fun s n => lv_free e s n.node) st).tlsf
          = clear_engine e st.tlsf nodes := by
  induction nodes with
  | nil => intro st; exact ⟨rfl, rfl, rfl⟩
  | cons n rest ih =>
    intro st
    obtain ⟨h1, h2, h3⟩ := ih (lv_free e st n.node)
    rw [List.foldl_cons, h1, h2, h3]
    show (lv_free_builtin e st n.node).cur_used
          - clear_reclaimed e (lv_free_builtin e st n.node).tlsf rest = _
        ∧ (lv_free_builtin e st n.node).max_used = _
        ∧ clear_engine e (lv_free_builtin e st n.node).tlsf rest = _
    rw [lv_free_builtin_cur_used, lv_free_builtin_max_used, lv_free_builtin_tlsf]
    refine ⟨?_, rfl, rfl⟩
    show _ = st.cur_used - ((e.lv_tlsf_free st.tlsf n.node).2
      + clear_reclaimed e (e.lv_tlsf_free st.tlsf n.node).1 rest)
    omega

theorem ll_clear_eq {T : Type} (e : TlsfEngine T) (st : State T) :
    (ll_clear e st).cur_used = st.cur_used - clear_reclaimed e st.tlsf st.pool_ll
      ∧ (ll_clear e st).max_used = st.max_used
      ∧ (ll_clear e st).tlsf = clear_engine e st.tlsf st.pool_ll
      ∧ (ll_clear e st).pool_ll = [] := by
  obtain ⟨h1, h2, h3⟩ := free_nodes_fold e st.pool_ll st
  exact ⟨h1, h2, h3, rfl⟩

theorem lv_mem_init_builtin_some {T : Type} (cfg : Config) (e : TlsfEngine T)
    (st : State T)
    (h : (e.lv_tlsf_malloc (e.lv_tlsf_create_with_pool cfg.work_mem cfg.LV_MEM_SIZE)
      cfg.ll_node_bytes).2 ≠ 0) :
    lv_mem_init_builtin cfg e st
      = some
        { tlsf := (e.lv_tlsf_malloc
            (e.lv_tlsf_create_with_pool cfg.work_mem cfg.LV_MEM_SIZE)
            cfg.ll_node_bytes).1
          cur_used := (st.cur_used + cfg.ll_node_bytes) % UINT32_MOD
          max_used := LV_MAX ((st.cur_used + cfg.ll_node_bytes) % UINT32_MOD) st.max_used
          pool_ll :=
            [{ node := (e.lv_tlsf_malloc
                  (e.lv_tlsf_create_with_pool cfg.work_mem cfg.LV_MEM_SIZE)
                  cfg.ll_node_bytes).2
               pool := e.lv_tlsf_get_pool (e.lv_tlsf_malloc
                  (e.lv_tlsf_create_with_pool cfg.work_mem cfg.LV_MEM_SIZE)
                  cfg.ll_node_bytes).1 }] } := by
  have h1 : ¬ (ll_node_alloc cfg e
      { tlsf := e.lv_tlsf_create_with_pool cfg.work_mem cfg.LV_MEM_SIZE
        cur_used := st.cur_used, max_used := st.max_used, pool_ll := ll_init }).2 = 0 := h
  unfold lv_mem_init_builtin
  dsimp only
  rw [if_neg h1]
  rfl

theorem lv_mem_init_builtin_none {T : Type} (cfg : Config) (e : TlsfEngine T)
    (st : State T)
    (h : (e.lv_tlsf_malloc (e.lv_tlsf_create_with_pool cfg.work_mem cfg.LV_MEM_SIZE)
      cfg.ll_node_bytes).2 = 0) :
    lv_mem_init_builtin cfg e st = none := by
  have h1 : (ll_node_alloc cfg e
      { tlsf := e.lv_tlsf_create_with_pool cfg.work_mem cfg.LV_MEM_SIZE
        cur_used := st.cur_used, max_used := st.max_used, pool_ll := ll_init }).2 = 0 := h
  unfold lv_mem_init_builtin
  dsimp only
  rw [if_pos h1]

theorem lv_mem_init_builtin_result {T : Type} (cfg : Config) (e : TlsfEngine T)
    (st st1 : State T) (h : lv_mem_init_builtin cfg e st = some st1) :
    (e.lv_tlsf_malloc (e.lv_tlsf_create_with_pool cfg.work_mem cfg.LV_MEM_SIZE)
        cfg.ll_node_bytes).2 ≠ 0
      ∧ st1.tlsf = (e.lv_tlsf_malloc
          (e.lv_tlsf_create_with_pool cfg.work_mem cfg.LV_MEM_SIZE)
          cfg.ll_node_bytes).1
      ∧ st1.cur_used = (st.cur_used + cfg.ll_node_bytes) % UINT32_MOD
      ∧ st1.max_used = max ((st.cur_used + cfg.ll_node_bytes) % UINT32_MOD) st.max_used
      ∧ st1.pool_ll =
          [{ node := (e.lv_tlsf_malloc
                (e.lv_tlsf_create_with_pool cfg.work_mem cfg.LV_MEM_SIZE)
                cfg.ll_node_bytes).2
             pool := e.lv_tlsf_get_pool st1.tlsf }] := by
  by_cases hn : (e.lv_tlsf_malloc
      (e.lv_tlsf_create_with_pool cfg.work_mem cfg.LV_MEM_SIZE) cfg.ll_node_bytes).2 = 0
  · rw [lv_mem_init_builtin_none cfg e st hn] at h
    exact absurd h (by simp)
  · rw [lv_mem_init_builtin_some cfg e st hn, Option.some.injEq] at h
    subst h
    exact ⟨hn, rfl, rfl, LV_MAX_eq_max _ _, rfl⟩

theorem lv_mem_deinit_builtin_eq {T : Type} (cfg : Config) (e : TlsfEngine T)
    (st : State T) :
    lv_mem_deinit_builtin cfg e st
      = lv_mem_init_builtin cfg e
          { ll_clear e st with tlsf := e.lv_tlsf_destroy (ll_clear e st).tlsf } := rfl

theorem lv_mem_builtin_add_pool_refused {T : Type} (cfg : Config) (e : TlsfEngine T)
    (st : State T) (mem : Ptr) (bytes : Nat)
    (h : (e.lv_tlsf_add_pool st.tlsf mem bytes).2 = 0) :
    lv_mem_builtin_add_pool cfg e st mem bytes
      = some ({ st with tlsf := (e.lv_tlsf_add_pool st.tlsf mem bytes).1 }, 0) := by
  unfold lv_mem_builtin_add_pool
  dsimp only
  rw [if_pos h]

theorem lv_mem_builtin_add_pool_accepted {T : Type} (cfg : Config) (e : TlsfEngine T)
    (st : State T) (mem : Ptr) (bytes : Nat)
    (h : (e.lv_tlsf_add_pool st.tlsf mem bytes).2 ≠ 0)
    (hnode : (ll_node_alloc cfg e
      { st with tlsf := (e.lv_tlsf_add_pool st.tlsf mem bytes).1 }).2 ≠ 0) :
    lv_mem_builtin_add_pool cfg e st mem bytes
      = some
        (ll_push
          (ll_node_alloc cfg e
            { st with tlsf := (e.lv_tlsf_add_pool st.tlsf mem bytes).1 }).1
          (ll_node_alloc cfg e
            { st with tlsf := (e.lv_tlsf_add_pool st.tlsf mem bytes).1 }).2
          (e.lv_tlsf_add_pool st.tlsf mem bytes).2,
         (e.lv_tlsf_add_pool st.tlsf mem bytes).2) := by
  unfold lv_mem_builtin_add_pool
  dsimp only
  rw [if_neg h, if_neg hnode]

theorem lv_mem_builtin_add_pool_no_node {T : Type} (cfg : Config) (e : TlsfEngine T)
    (st : State T) (mem : Ptr) (bytes : Nat)
    (h : (e.lv_tlsf_add_pool st.tlsf mem bytes).2 ≠ 0)
    (hnode : (ll_node_alloc cfg e
      { st with tlsf := (e.lv_tlsf_add_pool st.tlsf mem bytes).1 }).2 = 0) :
    lv_mem_builtin_add_pool cfg e st mem bytes = none := by
  unfold lv_mem_builtin_add_pool
  dsimp only
  rw [if_neg h, if_pos hnode]

theorem ll_node_alloc_counters {T : Type} (cfg : Config) (e : TlsfEngine T)
    (st : State T) :
    (ll_node_alloc cfg e st).1.cur_used = (st.cur_used + cfg.ll_node_bytes) % UINT32_MOD
      ∧ (ll_node_alloc cfg e st).1.max_used
          = max ((st.cur_used + cfg.ll_node_bytes) % UINT32_MOD) st.max_used
      ∧ (ll_node_alloc cfg e st).1.pool_ll = st.pool_ll
      ∧ (ll_node_alloc cfg e st).1.tlsf
          = (e.lv_tlsf_malloc st.tlsf cfg.ll_node_bytes).1
      ∧ (ll_node_alloc cfg e st).2 = (e.lv_tlsf_malloc st.tlsf cfg.ll_node_bytes).2 :=
  ⟨rfl, LV_MAX_eq_max _ _, rfl, rfl, rfl⟩

theorem lv_mem_builtin_add_pool_result {T : Type} (cfg : Config) (e : TlsfEngine T)
    (st : State T) (mem : Ptr) (bytes : Nat) (r : State T × lv_pool_t)
    (h : lv_mem_builtin_add_pool cfg e st mem bytes = some r) :
    r.2 = (e.lv_tlsf_add_pool st.tlsf mem bytes).2
      ∧ (r.2 = 0 → r.1.pool_ll = st.pool_ll ∧ r.1.cur_used = st.cur_used
          ∧ r.1.max_used = st.max_used)
      ∧ (r.2 ≠ 0 →
          r.1.pool_ll = st.pool_ll
              ++ [{ node := (ll_node_alloc cfg e
                      { st with tlsf := (e.lv_tlsf_add_pool st.tlsf mem bytes).1 }).2
                    pool := r.2 }]
            ∧ r.1.cur_used = (st.cur_used + cfg.ll_node_bytes) % UINT32_MOD
            ∧ r.1.max_used
              = max ((st.cur_used + cfg.ll_node_bytes) % UINT32_MOD) st.max_used)
      ∧ st.max_used ≤ r.1.max_used := by
  by_cases h0 : (e.lv_tlsf_add_pool st.tlsf mem bytes).2 = 0
  · rw [lv_mem_builtin_add_pool_refused cfg e st mem bytes h0, Option.some.injEq] at h
    subst h
    exact ⟨h0.symm, fun _ => ⟨rfl, rfl, rfl⟩, fun hne => absurd rfl hne, le_refl _⟩
  · by_cases hnode : (ll_node_alloc cfg e
        { st with tlsf := (e.lv_tlsf_add_pool st.tlsf mem bytes).1 }).2 = 0
    · rw [lv_mem_builtin_add_pool_no_node cfg e st mem bytes h0 hnode] at h
      exact absurd h (by simp)
    · rw [lv_mem_builtin_add_pool_accepted cfg e st mem bytes h0 hnode,
        Option.some.injEq] at h
      subst h
      refine ⟨rfl, fun hz => absurd hz h0, fun _ => ⟨rfl, rfl, LV_MAX_eq_max _ _⟩, ?_⟩
      show st.max_used ≤ LV_MAX _ _
      rw [LV_MAX_eq_max]
      exact le_max_right _ _

theorem lv_mem_builtin_remove_pool_counters {T : Type} (e : TlsfEngine T)
    (st : State T) (pool : lv_pool_t) :
    (lv_mem_builtin_remove_pool e st pool).cur_used ≤ st.cur_used
      ∧ (lv_mem_builtin_remove_pool e st pool).max_used = st.max_used := by
  unfold lv_mem_builtin_remove_pool
  split
  · dsimp only
    show (lv_free_builtin e _ _).cur_used ≤ _ ∧ (lv_free_builtin e _ _).max_used = _
    rw [lv_free_builtin_cur_used, lv_free_builtin_max_used]
    exact ⟨Nat.sub_le _ _, rfl⟩
  · exact ⟨le_refl _, rfl⟩

theorem lv_mem_test_builtin_counters {T : Type} (e : TlsfEngine T)
    (st : State T) :
    (lv_mem_test_builtin e st).1.cur_used = st.cur_used
      ∧ (lv_mem_test_builtin e st).1.max_used = st.max_used := by
  unfold lv_mem_test_builtin
  dsimp only
  split <;> exact ⟨rfl, rfl⟩

/-! ## The allocation facade: claims C1 to C6 -/

/-- C1, as stated, fails: after init with a 1024-byte pool and a successful
allocation of 100 bytes cur_used is 124 (the 100 bytes and the 24 bytes of the
registry node); the engine refuses 2000 bytes and lv_malloc_builtin returns
NULL, yet cur_used has gone from 124 to 2124 and max_used from 124 to 2124:
the counters are not as they were before the call. -/
theorem failed_malloc_moves_counters :
    toyAlloc100.cur_used = 124 ∧ toyAlloc100.max_used = 124
      ∧ (toyEngine.lv_tlsf_malloc toyAlloc100.tlsf 2000).2 = 0
      ∧ (lv_malloc_builtin toyEngine toyAlloc100 2000).2 = 0
      ∧ (lv_malloc_builtin toyEngine toyAlloc100 2000).1.cur_used = 2124
      ∧ (lv_malloc_builtin toyEngine toyAlloc100 2000).1.max_used = 2124
      ∧ ¬ ((lv_malloc_builtin toyEngine toyAlloc100 2000).1.cur_used = toyAlloc100.cur_used
            ∧ (lv_malloc_builtin toyEngine toyAlloc100 2000).1.max_used
                = toyAlloc100.max_used) := by
  decide

/-- C1, amended: whenever the allocation of the engine fails, lv_malloc_builtin
returns NULL, and the counters have been updated as for a successful call:
cur_used is the 32-bit sum of its old value and the requested size, max_used
is the larger of that sum and its old value. -/
theorem lv_malloc_builtin_failure {T : Type} (e : TlsfEngine T) (st : State T)
    (size : Nat) (hfail : (e.lv_tlsf_malloc st.tlsf size).2 = 0) :
    (lv_malloc_builtin e st size).2 = 0
      ∧ (lv_malloc_builtin e st size).1.cur_used = (st.cur_used + size) % 2 ^ 32
      ∧ (lv_malloc_builtin e st size).1.max_used
          = max ((st.cur_used + size) % 2 ^ 32) st.max_used := by
  refine ⟨?_, ?_, ?_⟩
  · rw [lv_malloc_builtin_ptr]; exact hfail
  · rw [lv_malloc_builtin_cur_used]; rfl
  · rw [lv_malloc_builtin_max_used]; rfl

theorem lv_malloc_builtin_failure_witness :
    (toyEngine.lv_tlsf_malloc toyAlloc100.tlsf 2000).2 = 0
      ∧ (lv_malloc_builtin toyEngine toyAlloc100 2000).2 = 0
      ∧ (lv_malloc_builtin toyEngine toyAlloc100 2000).1.cur_used
          = (toyAlloc100.cur_used + 2000) % 2 ^ 32
      ∧ (lv_malloc_builtin toyEngine toyAlloc100 2000).1.max_used
          = max ((toyAlloc100.cur_used + 2000) % 2 ^ 32) toyAlloc100.max_used :=
  ⟨by decide, lv_malloc_builtin_failure toyEngine toyAlloc100 2000 (by decide)⟩

/-- C2: in every state reached from cur_used = 0, max_used = 0 by a finite
sequence of calls of lv_malloc_builtin and lv_free_builtin (calls of
lv_realloc_builtin are allowed as well), with any engine, hence with any
outcome of each allocation and any reclaimed size, cur_used is not negative
and is at most max_used, the counters being 32-bit values that wrap around. -/
theorem cur_used_le_max_used_reachable {T : Type} (e : TlsfEngine T) (tlsf : T)
    (pool_ll : List PoolNode) (calls : List FacadeCall) :
    0 ≤ (facade_run e
          { tlsf := tlsf, cur_used := 0, max_used := 0, pool_ll := pool_ll } calls).cur_used
      ∧ (facade_run e
          { tlsf := tlsf, cur_used := 0, max_used := 0, pool_ll := pool_ll } calls).cur_used
        ≤ (facade_run e
          { tlsf := tlsf, cur_used := 0, max_used := 0, pool_ll := pool_ll } calls).max_used
      ∧ (facade_run e
          { tlsf := tlsf, cur_used := 0, max_used := 0, pool_ll := pool_ll } calls).max_used
        < 2 ^ 32 := by
  have h := CountersOk_run e calls
    { tlsf := tlsf, cur_used := 0, max_used := 0, pool_ll := pool_ll }
    ⟨le_refl _, Nat.pos_of_ne_zero (by decide)⟩
  exact ⟨Nat.zero_le _, h.1, h.2⟩

/-- C3: for every state and every call of a public function (malloc, realloc,
free, add_pool, remove_pool, monitor, test, init, deinit) that returns,
max_used after the call is at least max_used before it. -/
theorem max_used_monotone {T : Type} (cfg : Config) (e : TlsfEngine T)
    (st st1 : State T) (c : Call) (h : c.apply cfg e st = some st1) :
    st.max_used ≤ st1.max_used := by
  cases c with
  | facade fc =>
    simp only [Call.apply, Option.some.injEq] at h
    subst h
    exact max_used_le_apply e st fc
  | add_pool mem bytes =>
    simp only [Call.apply] at h
    split at h
    · rename_i r hr
      simp only [Option.some.injEq] at h
      subst h
      exact (lv_mem_builtin_add_pool_result cfg e st mem bytes r hr).2.2.2
    · exact absurd h (by simp)
  | remove_pool pool =>
    simp only [Call.apply, Option.some.injEq] at h
    subst h
    rw [(lv_mem_builtin_remove_pool_counters e st pool).2]
  | monitor mon_p =>
    simp only [Call.apply] at h
    split at h
    · simp only [Option.some.injEq] at h
      subst h
      exact le_refl _
    · exact absurd h (by simp)
  | test =>
    simp only [Call.apply, Option.some.injEq] at h
    subst h
    rw [(lv_mem_test_builtin_counters e st).2]
  | init =>
    simp only [Call.apply] at h
    rw [(lv_mem_init_builtin_result cfg e st st1 h).2.2.2.1]
    exact le_max_right _ _
  | deinit =>
    simp only [Call.apply] at h
    rw [lv_mem_deinit_builtin_eq] at h
    rw [(lv_mem_init_builtin_result cfg e _ st1 h).2.2.2.1]
    show st.max_used ≤ max _ (ll_clear e st).max_used
    rw [(ll_clear_eq e st).2.1]
    exact le_max_right _ _

theorem max_used_monotone_witness :
    Call.apply cfg1024 toyEngine toyStart Call.init = some toyInit
      ∧ toyStart.max_used ≤ toyInit.max_used
      ∧ toyStart.max_used = 0 ∧ toyInit.max_used = 24
      ∧ Call.apply cfg1024 toyEngine toyInit (Call.facade (FacadeCall.malloc 100))
        = some toyAlloc100
      ∧ toyInit.max_used ≤ toyAlloc100.max_used
      ∧ toyAlloc100.max_used = 124 :=
  ⟨by decide,
    max_used_monotone cfg1024 toyEngine toyStart toyInit Call.init (by decide),
    by decide, by decide, rfl,
    max_used_monotone cfg1024 toyEngine toyInit toyAlloc100
      (Call.facade (FacadeCall.malloc 100)) rfl,
    by decide⟩

/-- C4, as stated, fails: at program start, with both counters 0,
lv_mem_init_builtin leaves cur_used = 24 and max_used = 24, the size of the
registry node it takes from the heap; from a state in which the counters are
124 it leaves 148 when called directly and, called through
lv_mem_deinit_builtin, which first releases the node of 24 bytes, cur_used =
124 and max_used = 124: never 0. -/
theorem lv_mem_init_builtin_no_reset :
    toyStart.cur_used = 0 ∧ toyStart.max_used = 0
      ∧ (lv_mem_init_builtin cfg1024 toyEngine toyStart).map
          (fun s => (s.cur_used, s.max_used)) = some (24, 24)
      ∧ toyAlloc100.cur_used = 124 ∧ toyAlloc100.max_used = 124
      ∧ (lv_mem_init_builtin cfg1024 toyEngine toyAlloc100).map
          (fun s => (s.cur_used, s.max_used)) = some (148, 148)
      ∧ (lv_mem_deinit_builtin cfg1024 toyEngine toyAlloc100).map
          (fun s => (s.cur_used, s.max_used)) = some (124, 124)
      ∧ ¬ (∃ s, lv_mem_init_builtin cfg1024 toyEngine toyAlloc100 = some s
            ∧ s.cur_used = 0 ∧ s.max_used = 0)
      ∧ ¬ (∃ s, lv_mem_deinit_builtin cfg1024 toyEngine toyAlloc100 = some s
            ∧ s.cur_used = 0 ∧ s.max_used = 0) := by
  have h1 : (lv_mem_init_builtin cfg1024 toyEngine toyAlloc100).map
      (fun s => (s.cur_used, s.max_used)) = some (148, 148) := by decide
  have h2 : (lv_mem_deinit_builtin cfg1024 toyEngine toyAlloc100).map
      (fun s => (s.cur_used, s.max_used)) = some (124, 124) := by decide
  refine ⟨by decide, by decide, by decide, by decide, by decide, h1, h2, ?_, ?_⟩
  · rintro ⟨s, hs, hc, hm⟩
    rw [hs, Option.map_some', Option.some.injEq, hc, hm] at h1
    exact absurd h1 (by decide)
  · rintro ⟨s, hs, hc, hm⟩
    rw [hs, Option.map_some', Option.some.injEq, hc, hm] at h2
    exact absurd h2 (by decide)

/-- C4, amended: for every prior state (c, m), when lv_mem_init_builtin returns
the watermark counters are not reset: the function never assigns them, and
the registry node it takes from this allocator (k bytes) is charged like any
allocation, so cur_used = (c + k) mod 2^32 and max_used is the larger of that
and m.  Called through lv_mem_deinit_builtin, cur_used is first lowered, not
below 0, by the sizes the engine reports for the released registry nodes, and
then charged k in the same way; max_used is not lowered.  The function
returns exactly when the fresh engine hands out the node (LV_ASSERT_MALLOC
stops the program otherwise). -/
theorem lv_mem_init_builtin_charges_node {T : Type} (cfg : Config)
    (e : TlsfEngine T) (st : State T) :
    (∀ st1, lv_mem_init_builtin cfg e st = some st1 →
        st1.cur_used = (st.cur_used + cfg.ll_node_bytes) % 2 ^ 32
          ∧ st1.max_used = max ((st.cur_used + cfg.ll_node_bytes) % 2 ^ 32) st.max_used
          ∧ st.max_used ≤ st1.max_used)
      ∧ (∀ st2, lv_mem_deinit_builtin cfg e st = some st2 →
        st2.cur_used
            = (st.cur_used - clear_reclaimed e st.tlsf st.pool_ll
                + cfg.ll_node_bytes) % 2 ^ 32
          ∧ st2.max_used
            = max ((st.cur_used - clear_reclaimed e st.tlsf st.pool_ll
                + cfg.ll_node_bytes) % 2 ^ 32) st.max_used
          ∧ st.max_used ≤ st2.max_used)
      ∧ ((e.lv_tlsf_malloc (e.lv_tlsf_create_with_pool cfg.work_mem cfg.LV_MEM_SIZE)
            cfg.ll_node_bytes).2 ≠ 0 →
          (∃ st1, lv_mem_init_builtin cfg e st = some st1)
            ∧ (∃ st2, lv_mem_deinit_builtin cfg e st = some st2))
      ∧ ((e.lv_tlsf_malloc (e.lv_tlsf_create_with_pool cfg.work_mem cfg.LV_MEM_SIZE)
            cfg.ll_node_bytes).2 = 0 →
          lv_mem_init_builtin cfg e st = none
            ∧ lv_mem_deinit_builtin cfg e st = none) := by
  refine ⟨?_, ?_, ?_, ?_⟩
  · intro st1 h
    obtain ⟨_, _, hc, hm, _⟩ := lv_mem_init_builtin_result cfg e st st1 h
    refine ⟨hc, hm, ?_⟩
    rw [hm]
    exact le_max_right _ _
  · intro st2 h
    rw [lv_mem_deinit_builtin_eq] at h
    obtain ⟨_, _, hc, hm, _⟩ := lv_mem_init_builtin_result cfg e _ st2 h
    have hc1 : st2.cur_used = ((ll_clear e st).cur_used + cfg.ll_node_bytes) % UINT32_MOD := hc
    have hm1 : st2.max_used
        = max (((ll_clear e st).cur_used + cfg.ll_node_bytes) % UINT32_MOD)
            (ll_clear e st).max_used := hm
    rw [(ll_clear_eq e st).1] at hc1 hm1
    rw [(ll_clear_eq e st).2.1] at hm1
    refine ⟨hc1, hm1, ?_⟩
    rw [hm1]
    exact le_max_right _ _
  · intro hnode
    exact ⟨⟨_, lv_mem_init_builtin_some cfg e st hnode⟩,
      ⟨_, by rw [lv_mem_deinit_builtin_eq]; exact lv_mem_init_builtin_some cfg e _ hnode⟩⟩
  · intro hnode
    exact ⟨lv_mem_init_builtin_none cfg e st hnode,
      by rw [lv_mem_deinit_builtin_eq]; exact lv_mem_init_builtin_none cfg e _ hnode⟩

theorem lv_mem_init_builtin_charges_node_witness :
    lv_mem_init_builtin cfg1024 toyEngine toyStart = some toyInit
      ∧ toyInit.cur_used = (toyStart.cur_used + cfg1024.ll_node_bytes) % 2 ^ 32
      ∧ toyInit.cur_used = 24 ∧ toyInit.max_used = 24
      ∧ clear_reclaimed toyEngine toyTwoPools.tlsf toyTwoPools.pool_ll = 48
      ∧ toyTwoPools.cur_used = 48
      ∧ (lv_mem_deinit_builtin cfg1024 toyEngine toyTwoPools).map
          (fun s => (s.cur_used, s.max_used)) = some (24, 48) :=
  ⟨by decide,
    ((lv_mem_init_builtin_charges_node cfg1024 toyEngine toyStart).1 toyInit
      (by decide)).1,
    by decide, by decide, by decide, by decide, by decide⟩

/-- C5: for every state (c, m) and size n for which the allocation of the
engine succeeds, lv_malloc_builtin returns the pointer of the engine, and
afterwards cur_used is the 32-bit sum (c + n) mod 2^32 and max_used is the
larger of that sum and m; from (0, 0) a successful allocation of 100 bytes
gives cur_used = 100. -/
theorem lv_malloc_builtin_success {T : Type} (e : TlsfEngine T) (st : State T)
    (n : Nat) (hok : (e.lv_tlsf_malloc st.tlsf n).2 ≠ 0) :
    (lv_malloc_builtin e st n).2 = (e.lv_tlsf_malloc st.tlsf n).2
      ∧ (lv_malloc_builtin e st n).2 ≠ 0
      ∧ (lv_malloc_builtin e st n).1.cur_used = (st.cur_used + n) % 2 ^ 32
      ∧ (lv_malloc_builtin e st n).1.max_used
          = max ((st.cur_used + n) % 2 ^ 32) st.max_used
      ∧ (st.cur_used = 0 ∧ st.max_used = 0 ∧ n = 100 →
          (lv_malloc_builtin e st n).1.cur_used = 100
            ∧ (lv_malloc_builtin e st n).1.max_used = 100) := by
  refine ⟨rfl, hok, ?_, ?_, ?_⟩
  · rw [lv_malloc_builtin_cur_used]; rfl
  · rw [lv_malloc_builtin_max_used]; rfl
  · rintro ⟨hc, hm, hn⟩
    rw [lv_malloc_builtin_cur_used, lv_malloc_builtin_max_used, hc, hm, hn]
    decide

theorem lv_malloc_builtin_success_witness :
    (toyEngine.lv_tlsf_malloc toyZero.tlsf 100).2 ≠ 0
      ∧ toyZero.cur_used = 0 ∧ toyZero.max_used = 0
      ∧ (lv_malloc_builtin toyEngine toyZero 100).2 = 4136
      ∧ (lv_malloc_builtin toyEngine toyZero 100).1.cur_used = 100
      ∧ (lv_malloc_builtin toyEngine toyZero 100).1.max_used = 100
      ∧ (lv_malloc_builtin toyEngine toyInit 100).1.cur_used = (24 + 100) % 2 ^ 32 := by
  have h := lv_malloc_builtin_success toyEngine toyZero 100 (by decide)
  have h1 := lv_malloc_builtin_success toyEngine toyInit 100 (by decide)
  exact ⟨by decide, by decide, by decide, by decide,
    (h.2.2.2.2 ⟨by decide, by decide, rfl⟩).1, (h.2.2.2.2 ⟨by decide, by decide, rfl⟩).2,
    h1.2.2.1⟩

/-- C6: for every state with cur_used = c and every reclaimed size s that the
engine reports, lv_free_builtin leaves cur_used = c - s when c > s and
cur_used = 0 otherwise, that is max(0, c - s) over the integers, never a
wrapped value above c, and it leaves max_used as it was. -/
theorem lv_free_builtin_saturating {T : Type} (e : TlsfEngine T) (st : State T)
    (p : Ptr) :
    (lv_free_builtin e st p).cur_used
        = (if st.cur_used > (e.lv_tlsf_free st.tlsf p).2
            then st.cur_used - (e.lv_tlsf_free st.tlsf p).2 else 0)
      ∧ ((lv_free_builtin e st p).cur_used : Int)
          = max 0 ((st.cur_used : Int) - ((e.lv_tlsf_free st.tlsf p).2 : Int))
      ∧ (lv_free_builtin e st p).cur_used ≤ st.cur_used
      ∧ (lv_free_builtin e st p).max_used = st.max_used := by
  rw [lv_free_builtin_cur_used, lv_free_builtin_max_used]
  refine ⟨?_, ?_, Nat.sub_le _ _, rfl⟩
  · split <;> omega
  · omega

/-! ## The usage monitor: lemmas on the walk -/

theorem walk_pools_flatMap (f : lv_pool_t → List Block) (pools : List lv_pool_t) :
    ∀ m : lv_mem_monitor_t,
      pools.foldl (fun mon pool => (f pool).foldl lv_mem_walker mon) m
        = (pools.flatMap f).foldl lv_mem_walker m := by
  induction pools with
  | nil => intro m; rfl
  | cons p ps ih =>
    intro m
    rw [List.flatMap_cons, List.foldl_append, List.foldl_cons, ih]

theorem lv_mem_monitor_walk_eq {T : Type} (e : TlsfEngine T) (st : State T)
    (mon_p : lv_mem_monitor_t) :
    lv_mem_monitor_walk e st mon_p
      = (registry_blocks e st).foldl lv_mem_walker mon_zero := by
  unfold lv_mem_monitor_walk registry_blocks
  exact walk_pools_flatMap _ _ _

theorem lv_mem_walker_total_size (mon : lv_mem_monitor_t) (b : Block) :
    (lv_mem_walker mon b).total_size = (mon.total_size + b.size) % UINT32_MOD := by
  unfold lv_mem_walker
  dsimp only
  split
  · rfl
  · split <;> rfl

theorem lv_mem_walker_used (mon : lv_mem_monitor_t) (b : Block) (h : b.used ≠ 0) :
    (lv_mem_walker mon b).used_cnt = (mon.used_cnt + 1) % UINT32_MOD
      ∧ (lv_mem_walker mon b).free_cnt = mon.free_cnt
      ∧ (lv_mem_walker mon b).free_size = mon.free_size
      ∧ (lv_mem_walker mon b).free_biggest_size = mon.free_biggest_size := by
  unfold lv_mem_walker
  dsimp only
  rw [if_pos h]
  exact ⟨rfl, rfl, rfl, rfl⟩

theorem lv_mem_walker_free (mon : lv_mem_monitor_t) (b : Block) (h : b.used = 0) :
    (lv_mem_walker mon b).used_cnt = mon.used_cnt
      ∧ (lv_mem_walker mon b).free_cnt = (mon.free_cnt + 1) % UINT32_MOD
      ∧ (lv_mem_walker mon b).free_size = (mon.free_size + b.size) % UINT32_MOD
      ∧ (lv_mem_walker mon b).free_biggest_size
          = (if b.size > mon.free_biggest_size then b.size % UINT32_MOD
              else mon.free_biggest_size) := by
  unfold lv_mem_walker
  dsimp only
  rw [if_neg (not_not.mpr h)]
  split <;> exact ⟨rfl, rfl, rfl, rfl⟩

theorem lv_mem_walker_other (mon : lv_mem_monitor_t) (b : Block) :
    (lv_mem_walker mon b).max_used = mon.max_used
      ∧ (lv_mem_walker mon b).used_pct = mon.used_pct
      ∧ (lv_mem_walker mon b).frag_pct = mon.frag_pct := by
  unfold lv_mem_walker
  dsimp only
  split
  · exact ⟨rfl, rfl, rfl⟩
  · split <;> exact ⟨rfl, rfl, rfl⟩

theorem sum_sizes_snoc (bs : List Block) (b : Block) :
    sum_sizes (bs ++ [b]) = sum_sizes bs + b.size := by
  simp [sum_sizes]

theorem used_blocks_snoc_used (bs : List Block) (b : Block) (h : b.used ≠ 0) :
    used_blocks (bs ++ [b]) = used_blocks bs ++ [b]
      ∧ free_blocks (bs ++ [b]) = free_blocks bs := by
  simp [used_blocks, free_blocks, List.filter_append, h]

theorem used_blocks_snoc_free (bs : List Block) (b : Block) (h : b.used = 0) :
    used_blocks (bs ++ [b]) = used_blocks bs
      ∧ free_blocks (bs ++ [b]) = free_blocks bs ++ [b] := by
  simp [used_blocks, free_blocks, List.filter_append, h]

theorem max_size_snoc (bs : List Block) (b : Block) :
    max_size (bs ++ [b]) = max (max_size bs) b.size := by
  simp [max_size, List.foldl_append]

theorem max_size_nil : max_size [] = 0 := rfl

theorem le_max_size (bs : List Block) : ∀ b ∈ bs, b.size ≤ max_size bs := by
  induction bs using List.reverseRecOn with
  | nil => intro b hb; simp at hb
  | append_singleton l a ih =>
    intro b hb
    rw [max_size_snoc]
    rcases List.mem_append.mp hb with h | h
    · exact le_trans (ih b h) (le_max_left _ _)
    · rw [List.mem_singleton.mp h]
      exact le_max_right _ _

theorem max_size_mem (bs : List Block) (hne : bs ≠ []) :
    ∃ b ∈ bs, b.size = max_size bs := by
  induction bs using List.reverseRecOn with
  | nil => exact absurd rfl hne
  | append_singleton l a ih =>
    rw [max_size_snoc]
    by_cases hl : l = []
    · subst hl
      exact ⟨a, by simp, by simp [max_size_nil]⟩
    · obtain ⟨b, hb, hbe⟩ := ih hl
      by_cases hcmp : max_size l ≤ a.size
      · exact ⟨a, by simp, by rw [max_eq_right hcmp]⟩
      · exact ⟨b, List.mem_append.mpr (Or.inl hb),
          by rw [max_eq_left (le_of_not_le hcmp)]; exact hbe⟩

theorem walk_sums (bs : List Block) :
    (bs.foldl lv_mem_walker mon_zero).total_size = sum_sizes bs % UINT32_MOD
      ∧ (bs.foldl lv_mem_walker mon_zero).used_cnt
          = (used_blocks bs).length % UINT32_MOD
      ∧ (bs.foldl lv_mem_walker mon_zero).free_cnt
          = (free_blocks bs).length % UINT32_MOD
      ∧ (bs.foldl lv_mem_walker mon_zero).free_size
          = sum_sizes (free_blocks bs) % UINT32_MOD := by
  induction bs using List.reverseRecOn with
  | nil => exact ⟨rfl, rfl, rfl, rfl⟩
  | append_singleton l a ih =>
    obtain ⟨h1, h2, h3, h4⟩ := ih
    rw [List.foldl_append, List.foldl_cons, List.foldl_nil]
    refine ⟨?_, ?_⟩
    · rw [lv_mem_walker_total_size, h1, sum_sizes_snoc, Nat.mod_add_mod]
    · by_cases hu : a.used = 0
      · obtain ⟨w1, w2, w3, _⟩ := lv_mem_walker_free (l.foldl lv_mem_walker mon_zero) a hu
        obtain ⟨u1, u2⟩ := used_blocks_snoc_free l a hu
        rw [w1, w2, w3, u1, u2, h2, h3, h4, sum_sizes_snoc, List.length_append,
          List.length_singleton, Nat.mod_add_mod, Nat.mod_add_mod]
        exact ⟨rfl, rfl, rfl⟩
      · obtain ⟨w1, w2, w3, _⟩ := lv_mem_walker_used (l.foldl lv_mem_walker mon_zero) a hu
        obtain ⟨u1, u2⟩ := used_blocks_snoc_used l a hu
        rw [w1, w2, w3, u1, u2, h2, h3, h4, List.length_append,
          List.length_singleton, Nat.mod_add_mod]
        exact ⟨rfl, rfl, rfl⟩

theorem walk_biggest (bs : List Block)
    (hfit : ∀ b ∈ bs, b.used = 0 → b.size < UINT32_MOD) :
    (bs.foldl lv_mem_walker mon_zero).free_biggest_size = max_size (free_blocks bs) := by
  induction bs using List.reverseRecOn with
  | nil => rfl
  | append_singleton l a ih =>
    have ih1 := ih (fun b hb => hfit b (List.mem_append.mpr (Or.inl hb)))
    rw [List.foldl_append, List.foldl_cons, List.foldl_nil]
    by_cases hu : a.used = 0
    · obtain ⟨_, _, _, w4⟩ := lv_mem_walker_free (l.foldl lv_mem_walker mon_zero) a hu
      have hsz : a.size < UINT32_MOD := hfit a (by simp) hu
      rw [w4, (used_blocks_snoc_free l a hu).2, max_size_snoc, ih1, Nat.mod_eq_of_lt hsz]
      split
      · rw [max_eq_right (by omega)]
      · rw [max_eq_left (by omega)]
    · obtain ⟨_, _, _, w4⟩ := lv_mem_walker_used (l.foldl lv_mem_walker mon_zero) a hu
      rw [w4, (used_blocks_snoc_used l a hu).2, ih1]

theorem walk_other (bs : List Block) :
    (bs.foldl lv_mem_walker mon_zero).max_used = 0
      ∧ (bs.foldl lv_mem_walker mon_zero).used_pct = 0
      ∧ (bs.foldl lv_mem_walker mon_zero).frag_pct = 0 := by
  induction bs using List.reverseRecOn with
  | nil => exact ⟨rfl, rfl, rfl⟩
  | append_singleton l a ih =>
    rw [List.foldl_append, List.foldl_cons, List.foldl_nil]
    obtain ⟨w1, w2, w3⟩ := lv_mem_walker_other (l.foldl lv_mem_walker mon_zero) a
    rw [w1, w2, w3]
    exact ih

/-! ## The usage monitor: lemmas on the result -/

theorem lv_mem_monitor_builtin_of_total_ne_zero {T : Type} (e : TlsfEngine T)
    (st : State T) (mon_p : lv_mem_monitor_t)
    (h : (lv_mem_monitor_walk e st mon_p).total_size ≠ 0) :
    ∃ mon, lv_mem_monitor_builtin e st mon_p = some mon
      ∧ mon.total_size = (lv_mem_monitor_walk e st mon_p).total_size
      ∧ mon.free_cnt = (lv_mem_monitor_walk e st mon_p).free_cnt
      ∧ mon.free_size = (lv_mem_monitor_walk e st mon_p).free_size
      ∧ mon.free_biggest_size = (lv_mem_monitor_walk e st mon_p).free_biggest_size
      ∧ mon.used_cnt = (lv_mem_monitor_walk e st mon_p).used_cnt
      ∧ mon.max_used = st.max_used
      ∧ mon.used_pct = used_pct_of (lv_mem_monitor_walk e st mon_p).free_size
          (lv_mem_monitor_walk e st mon_p).total_size
      ∧ mon.frag_pct
          = (if (lv_mem_monitor_walk e st mon_p).free_size > 0 then
              frag_pct_of (lv_mem_monitor_walk e st mon_p).free_biggest_size
                (lv_mem_monitor_walk e st mon_p).free_size
             else 0) := by
  unfold lv_mem_monitor_builtin
  dsimp only
  rw [if_neg h]
  refine ⟨_, rfl, ?_⟩
  split <;> exact ⟨rfl, rfl, rfl, rfl, rfl, rfl, rfl, rfl⟩

theorem lv_mem_monitor_builtin_none_iff {T : Type} (e : TlsfEngine T)
    (st : State T) (mon_p : lv_mem_monitor_t) :
    lv_mem_monitor_builtin e st mon_p = none
      ↔ (lv_mem_monitor_walk e st mon_p).total_size = 0 := by
  constructor
  · intro h
    by_contra hne
    obtain ⟨mon, hmon, _⟩ := lv_mem_monitor_builtin_of_total_ne_zero e st mon_p hne
    rw [h] at hmon
    exact absurd hmon (by simp)
  · intro h
    unfold lv_mem_monitor_builtin
    dsimp only
    rw [if_pos h]

theorem used_pct_of_eq (free_size total_size : Nat)
    (hmul : 100 * free_size < UINT32_MOD) (hle : free_size ≤ total_size) :
    100 * free_size / total_size ≤ 100
      ∧ used_pct_of free_size total_size = 100 - 100 * free_size / total_size := by
  have hq : 100 * free_size / total_size ≤ 100 :=
    Nat.div_le_of_le_mul (by rw [Nat.mul_comm total_size 100]; exact Nat.mul_le_mul_left 100 hle)
  refine ⟨hq, ?_⟩
  unfold used_pct_of
  rw [Nat.mod_eq_of_lt hmul]
  generalize 100 * free_size / total_size = q at hq
  simp only [UINT32_MOD, UINT8_MOD]
  omega

theorem frag_pct_of_eq (free_biggest_size free_size : Nat)
    (hmul : 100 * free_size < UINT32_MOD) (hle : free_biggest_size ≤ free_size) :
    100 * free_biggest_size / free_size ≤ 100
      ∧ frag_pct_of free_biggest_size free_size
          = 100 - 100 * free_biggest_size / free_size := by
  have hq : 100 * free_biggest_size / free_size ≤ 100 :=
    Nat.div_le_of_le_mul
      (by rw [Nat.mul_comm free_size 100]; exact Nat.mul_le_mul_left 100 hle)
  have hb : free_biggest_size * 100 < UINT32_MOD := by
    have : free_biggest_size * 100 ≤ 100 * free_size := by
      rw [Nat.mul_comm free_biggest_size 100]; exact Nat.mul_le_mul_left 100 hle
    omega
  refine ⟨hq, ?_⟩
  unfold frag_pct_of
  dsimp only
  rw [Nat.mod_eq_of_lt hb, Nat.mul_comm free_biggest_size 100]
  generalize 100 * free_biggest_size / free_size = q at hq
  simp only [UINT8_MOD]
  omega

theorem frag_quotient_lt (free_biggest_size free_size : Nat)
    (hlt : free_biggest_size < free_size) :
    100 * free_biggest_size / free_size < 100 := by
  rw [Nat.div_lt_iff_lt_mul (by omega)]
  exact Nat.mul_lt_mul_of_pos_left hlt (by decide)

theorem remove_pool_scan_eq_none (pool : lv_pool_t) (ll : List PoolNode)
    (h : pool ∉ ll.map PoolNode.pool) : remove_pool_scan pool ll = none := by
  induction ll with
  | nil => rfl
  | cons n rest ih =>
    have hp : ¬ n.pool = pool := fun hp => h (by simp [hp])
    have hrest : pool ∉ rest.map PoolNode.pool := fun hr => h (by simp at hr ⊢; exact Or.inr hr)
    unfold remove_pool_scan
    rw [if_neg hp, ih hrest]

theorem sum_sizes_free_le (bs : List Block) :
    sum_sizes (free_blocks bs) ≤ sum_sizes bs := by
  induction bs using List.reverseRecOn with
  | nil => exact le_refl _
  | append_singleton l a ih =>
    by_cases hu : a.used = 0
    · rw [(used_blocks_snoc_free l a hu).2, sum_sizes_snoc, sum_sizes_snoc]
      omega
    · rw [(used_blocks_snoc_used l a hu).2, sum_sizes_snoc]
      omega

theorem max_size_le_sum_sizes (bs : List Block) : max_size bs ≤ sum_sizes bs := by
  induction bs using List.reverseRecOn with
  | nil => exact le_refl _
  | append_singleton l a ih =>
    rw [max_size_snoc, sum_sizes_snoc]
    exact max_le (by omega) (by omega)

theorem size_le_sum_sizes (bs : List Block) : ∀ b ∈ bs, b.size ≤ sum_sizes bs :=
  fun b hb => le_trans (le_max_size bs b hb) (max_size_le_sum_sizes bs)

theorem walk_order_of_no_wrap (bs : List Block) (h : sum_sizes bs < UINT32_MOD) :
    (bs.foldl lv_mem_walker mon_zero).total_size = sum_sizes bs
      ∧ (bs.foldl lv_mem_walker mon_zero).free_size = sum_sizes (free_blocks bs)
      ∧ (bs.foldl lv_mem_walker mon_zero).free_biggest_size = max_size (free_blocks bs)
      ∧ (bs.foldl lv_mem_walker mon_zero).free_biggest_size
          ≤ (bs.foldl lv_mem_walker mon_zero).free_size
      ∧ (bs.foldl lv_mem_walker mon_zero).free_size
          ≤ (bs.foldl lv_mem_walker mon_zero).total_size := by
  obtain ⟨s1, _, _, s4⟩ := walk_sums bs
  have hfree := sum_sizes_free_le bs
  have hbig := walk_biggest bs
    (fun b hb _ => lt_of_le_of_lt (size_le_sum_sizes bs b hb) h)
  have hmax := max_size_le_sum_sizes (free_blocks bs)
  rw [s1, s4, hbig, Nat.mod_eq_of_lt h, Nat.mod_eq_of_lt (lt_of_le_of_lt hfree h)]
  exact ⟨rfl, rfl, rfl, hmax, hfree⟩

/-! ## The usage monitor and the registry: claims C7 to C10 -/

/-- C7, as stated, fails at two places.  With an empty registry (the primary
pool removed after init) the walk leaves total_size = 0 and the function
divides by zero: it produces nothing.  With block sizes that add up to 2^32
or more the 32-bit fields wrap around: for blocks of 4294967246, 100 and
4294967266 bytes total_size is 20, not the sum 8589934612, and free_size is
50, not 4294967346. -/
theorem monitor_sums_counterexample :
    toyNoPool.pool_ll = []
      ∧ lv_mem_monitor_builtin toyEngine toyNoPool mon_zero = none
      ∧ sum_sizes (registry_blocks toyEngine toyWrapped) = 8589934612
      ∧ sum_sizes (free_blocks (registry_blocks toyEngine toyWrapped)) = 4294967346
      ∧ (lv_mem_monitor_builtin toyEngine toyWrapped mon_zero).map
          (fun mon => (mon.total_size, mon.free_size)) = some (20, 50)
      ∧ ¬ (∃ mon, lv_mem_monitor_builtin toyEngine toyNoPool mon_zero = some mon
            ∧ mon.total_size = sum_sizes (registry_blocks toyEngine toyNoPool))
      ∧ ¬ (∃ mon, lv_mem_monitor_builtin toyEngine toyWrapped mon_zero = some mon
            ∧ mon.total_size = sum_sizes (registry_blocks toyEngine toyWrapped)) := by
  refine ⟨by decide, by decide, by decide, by decide, by decide, ?_, ?_⟩
  · rintro ⟨mon, h, _⟩
    have hnone : lv_mem_monitor_builtin toyEngine toyNoPool mon_zero = none := by decide
    rw [hnone] at h
    exact absurd h (by simp)
  · rintro ⟨mon, h, htot⟩
    have hsome : (lv_mem_monitor_builtin toyEngine toyWrapped mon_zero).map
        (fun mon => mon.total_size) = some 20 := by decide
    have hsum : sum_sizes (registry_blocks toyEngine toyWrapped) = 8589934612 := by decide
    rw [h, Option.map_some', Option.some.injEq, htot, hsum] at hsome
    exact absurd hsome (by decide)

/-- C7, amended: for every registry and every block sequence the engine
enumerates for each pool for which the 32-bit sum of all block sizes is not 0,
and whatever the output structure held before, lv_mem_monitor_builtin produces
a snapshot whose fields are the 32-bit values (mod 2^32) of: total_size, the
sum of the sizes of all blocks of all registered pools; used_cnt, the number
of used blocks; free_cnt, the number of free blocks; free_size, the sum of the
sizes of the free blocks; and, when every free block is smaller than 2^32,
free_biggest_size is the maximum free-block size (0 when there is no free
block).  Appending a pool to the registry adds that pool's block sizes to
total_size, mod 2^32. -/
theorem lv_mem_monitor_builtin_sums {T : Type} (e : TlsfEngine T) (st : State T)
    (mon_p : lv_mem_monitor_t)
    (hne : sum_sizes (registry_blocks e st) % 2 ^ 32 ≠ 0) :
    ∃ mon, lv_mem_monitor_builtin e st mon_p = some mon
      ∧ mon.total_size = sum_sizes (registry_blocks e st) % 2 ^ 32
      ∧ mon.used_cnt = (used_blocks (registry_blocks e st)).length % 2 ^ 32
      ∧ mon.free_cnt = (free_blocks (registry_blocks e st)).length % 2 ^ 32
      ∧ mon.free_size = sum_sizes (free_blocks (registry_blocks e st)) % 2 ^ 32
      ∧ ((∀ b ∈ registry_blocks e st, b.used = 0 → b.size < 2 ^ 32) →
          mon.free_biggest_size = max_size (free_blocks (registry_blocks e st))
            ∧ (∀ b ∈ registry_blocks e st, b.used = 0 → b.size ≤ mon.free_biggest_size)
            ∧ (free_blocks (registry_blocks e st) = [] → mon.free_biggest_size = 0)
            ∧ (free_blocks (registry_blocks e st) ≠ [] →
                ∃ b ∈ registry_blocks e st, b.used = 0 ∧ b.size = mon.free_biggest_size))
      ∧ (∀ (n : PoolNode) mon1,
          lv_mem_monitor_builtin e { st with pool_ll := st.pool_ll ++ [n] } mon_p
              = some mon1 →
            mon1.total_size
              = (mon.total_size + sum_sizes (e.lv_tlsf_walk_pool st.tlsf n.pool)) % 2 ^ 32) := by
  have hw := lv_mem_monitor_walk_eq e st mon_p
  obtain ⟨s1, s2, s3, s4⟩ := walk_sums (registry_blocks e st)
  have htot : (lv_mem_monitor_walk e st mon_p).total_size ≠ 0 := by
    rw [hw, s1]; exact hne
  obtain ⟨mon, hmon, m1, m2, m3, m4, m5, _⟩ :=
    lv_mem_monitor_builtin_of_total_ne_zero e st mon_p htot
  refine ⟨mon, hmon, ?_, ?_, ?_, ?_, ?_, ?_⟩
  · rw [m1, hw, s1]; rfl
  · rw [m5, hw, s2]; rfl
  · rw [m2, hw, s3]; rfl
  · rw [m3, hw, s4]; rfl
  · intro hfit
    have hbig : mon.free_biggest_size = max_size (free_blocks (registry_blocks e st)) := by
      rw [m4, hw]; exact walk_biggest _ hfit
    refine ⟨hbig, ?_, ?_, ?_⟩
    · intro b hb hu
      rw [hbig]
      exact le_max_size _ b (by simp [free_blocks, hb, hu])
    · intro hnil
      rw [hbig, hnil]; rfl
    · intro hnn
      obtain ⟨b, hb, hbe⟩ := max_size_mem _ hnn
      have hb2 : b ∈ registry_blocks e st ∧ b.used = 0 := by
        simpa [free_blocks] using hb
      exact ⟨b, hb2.1, hb2.2, by rw [hbig]; exact hbe⟩
  · intro n mon1 hmon1
    have hw1 := lv_mem_monitor_walk_eq e { st with pool_ll := st.pool_ll ++ [n] } mon_p
    have hb1 : registry_blocks e { st with pool_ll := st.pool_ll ++ [n] }
        = registry_blocks e st ++ e.lv_tlsf_walk_pool st.tlsf n.pool := by
      simp [registry_blocks, State.pools, List.flatMap_append]
    have hne1 : (lv_mem_monitor_walk e { st with pool_ll := st.pool_ll ++ [n] }
        mon_p).total_size ≠ 0 := by
      intro h0
      rw [(lv_mem_monitor_builtin_none_iff e _ mon_p).mpr h0] at hmon1
      exact absurd hmon1 (by simp)
    obtain ⟨mon2, hmon2, n1, _⟩ :=
      lv_mem_monitor_builtin_of_total_ne_zero e _ mon_p hne1
    rw [hmon1, Option.some.injEq] at hmon2
    subst hmon2
    rw [n1, hw1, hb1, (walk_sums _).1, m1, hw, s1]
    simp [sum_sizes, UINT32_MOD, Nat.add_mod]

theorem lv_mem_monitor_builtin_sums_witness :
    sum_sizes (registry_blocks toyEngine toyInit) % 2 ^ 32 ≠ 0
      ∧ toyInit.pools = [4096] ∧ toyTwoPools.pools = [4096] ++ [8192]
      ∧ (lv_mem_monitor_builtin toyEngine toyInit mon_zero).map
          (fun mon => mon.total_size) = some 1024
      ∧ (lv_mem_monitor_builtin toyEngine toyTwoPools mon_zero).map
          (fun mon => mon.total_size) = some (1024 + 512)
      ∧ ∃ mon, lv_mem_monitor_builtin toyEngine toyInit mon_zero = some mon
          ∧ mon.total_size = sum_sizes (registry_blocks toyEngine toyInit) % 2 ^ 32 := by
  obtain ⟨mon, h, ht, _⟩ :=
    lv_mem_monitor_builtin_sums toyEngine toyInit mon_zero (by decide)
  exact ⟨by decide, by decide, by decide, by decide, by decide, mon, h, ht⟩

/-- C8, as stated, fails when the 32-bit sums of the walk have wrapped around.
For free blocks of 4294967246 and 100 bytes and a used block of 4294967266
bytes the walk result is total_size = 20, free_size = 50 and
free_biggest_size = 4294967246: total_size > 0 and 100 * free_size does not
overflow, yet used_pct is 106, not 100 - floor(5000 / 20) = -150, and frag_pct
is 119, not 100 - floor(429496724600 / 50) = -8589934392. -/
theorem monitor_percentages_counterexample :
    (lv_mem_monitor_builtin toyEngine toyWrapped mon_zero).map
        (fun mon => (mon.total_size, mon.free_size, mon.free_biggest_size,
          mon.used_pct, mon.frag_pct))
        = some (20, 50, 4294967246, 106, 119)
      ∧ 0 < (lv_mem_monitor_walk toyEngine toyWrapped mon_zero).total_size
      ∧ 100 * (lv_mem_monitor_walk toyEngine toyWrapped mon_zero).free_size < 2 ^ 32
      ∧ (100 : Int) - ((100 * 50 / 20 : Nat) : Int) = -150
      ∧ (100 : Int) - ((100 * 4294967246 / 50 : Nat) : Int) = -8589934392
      ∧ ¬ (∃ mon, lv_mem_monitor_builtin toyEngine toyWrapped mon_zero = some mon
            ∧ (mon.used_pct : Int)
                = 100 - ((100 * mon.free_size / mon.total_size : Nat) : Int))
      ∧ ¬ (∃ mon, lv_mem_monitor_builtin toyEngine toyWrapped mon_zero = some mon
            ∧ (mon.frag_pct : Int)
                = 100 - ((100 * mon.free_biggest_size / mon.free_size : Nat) : Int)) := by
  have hval : (lv_mem_monitor_builtin toyEngine toyWrapped mon_zero).map
        (fun mon => (mon.total_size, mon.free_size, mon.free_biggest_size,
          mon.used_pct, mon.frag_pct))
        = some (20, 50, 4294967246, 106, 119) := by decide
  refine ⟨hval, by decide, by decide, by decide, by decide, ?_, ?_⟩
  · rintro ⟨mon, h, hpct⟩
    rw [h, Option.map_some', Option.some.injEq] at hval
    simp only [Prod.mk.injEq] at hval
    obtain ⟨h1, h2, _, h4, _⟩ := hval
    rw [h1, h2, h4] at hpct
    exact absurd hpct (by decide)
  · rintro ⟨mon, h, hpct⟩
    rw [h, Option.map_some', Option.some.injEq] at hval
    simp only [Prod.mk.injEq] at hval
    obtain ⟨_, h2, h3, _, h5⟩ := hval
    rw [h2, h3, h5] at hpct
    exact absurd hpct (by decide)

/-- C8, amended: for every walk result with total_size > 0, with 100 *
free_size representable in 32 bits, and with free_biggest_size <= free_size <=
total_size (as is the case whenever the 32-bit sums of the walk did not wrap
around), lv_mem_monitor_builtin produces a snapshot with used_pct = 100 -
floor(100 * free_size / total_size), and with frag_pct = 100 - floor(100 *
free_biggest_size / free_size) when free_size > 0 and frag_pct = 0 when
free_size = 0; frag_pct is 0 both when there is no free memory and when
free_biggest_size = free_size. -/
theorem lv_mem_monitor_builtin_percentages {T : Type} (e : TlsfEngine T)
    (st : State T) (mon_p : lv_mem_monitor_t)
    (htotal : 0 < (lv_mem_monitor_walk e st mon_p).total_size)
    (hmul : 100 * (lv_mem_monitor_walk e st mon_p).free_size < 2 ^ 32)
    (hfree : (lv_mem_monitor_walk e st mon_p).free_size
      ≤ (lv_mem_monitor_walk e st mon_p).total_size)
    (hbig : (lv_mem_monitor_walk e st mon_p).free_biggest_size
      ≤ (lv_mem_monitor_walk e st mon_p).free_size) :
    ∃ mon, lv_mem_monitor_builtin e st mon_p = some mon
      ∧ mon.total_size = (lv_mem_monitor_walk e st mon_p).total_size
      ∧ mon.free_size = (lv_mem_monitor_walk e st mon_p).free_size
      ∧ mon.free_biggest_size = (lv_mem_monitor_walk e st mon_p).free_biggest_size
      ∧ (mon.used_pct : Int)
          = 100 - ((100 * mon.free_size / mon.total_size : Nat) : Int)
      ∧ (mon.frag_pct : Int)
          = (if mon.free_size > 0 then
              100 - ((100 * mon.free_biggest_size / mon.free_size : Nat) : Int)
             else 0)
      ∧ (mon.free_size = 0 → mon.frag_pct = 0)
      ∧ (mon.free_biggest_size = mon.free_size → mon.frag_pct = 0)
      ∧ (sum_sizes (registry_blocks e st) < 2 ^ 32 →
          mon.free_biggest_size ≤ mon.free_size ∧ mon.free_size ≤ mon.total_size) := by
  obtain ⟨mon, hmon, m1, _, m3, m4, _, _, m7, m8⟩ :=
    lv_mem_monitor_builtin_of_total_ne_zero e st mon_p (by omega)
  have hord : sum_sizes (registry_blocks e st) < 2 ^ 32 →
      mon.free_biggest_size ≤ mon.free_size ∧ mon.free_size ≤ mon.total_size := by
    intro hsum
    obtain ⟨_, _, _, o4, o5⟩ := walk_order_of_no_wrap (registry_blocks e st) hsum
    rw [← lv_mem_monitor_walk_eq e st mon_p] at o4 o5
    rw [m1, m3, m4]
    exact ⟨o4, o5⟩
  rw [← m1, ← m3] at hfree
  rw [← m3, ← m4] at hbig
  rw [← m3] at hmul
  rw [← m3, ← m1] at m7
  rw [← m3, ← m4] at m8
  obtain ⟨hq, hu⟩ := used_pct_of_eq mon.free_size mon.total_size hmul hfree
  have hfrag : mon.frag_pct
      = if mon.free_size > 0 then 100 - 100 * mon.free_biggest_size / mon.free_size
        else 0 := by
    rw [m8]
    split
    · exact (frag_pct_of_eq mon.free_biggest_size mon.free_size hmul hbig).2
    · rfl
  have hq2 := (frag_pct_of_eq mon.free_biggest_size mon.free_size hmul hbig).1
  refine ⟨mon, hmon, m1, m3, m4, ?_, ?_, ?_, ?_, hord⟩
  · rw [m7, hu]; omega
  · rw [hfrag]
    split
    · omega
    · rfl
  · intro h0
    rw [hfrag, if_neg (by omega)]
  · intro heq
    rw [hfrag]
    split
    · rw [heq, Nat.mul_div_cancel _ (by omega)]
    · rfl

theorem lv_mem_monitor_builtin_percentages_witness :
    0 < (lv_mem_monitor_walk toyEngine toySplit mon_zero).total_size
      ∧ (lv_mem_monitor_builtin toyEngine toySplit mon_zero).map
          (fun mon => (mon.total_size, mon.free_size, mon.free_biggest_size,
            mon.used_pct, mon.frag_pct))
          = some (320, 128, 64, 60, 50)
      ∧ ∃ mon, lv_mem_monitor_builtin toyEngine toySplit mon_zero = some mon
          ∧ (mon.used_pct : Int)
              = 100 - ((100 * mon.free_size / mon.total_size : Nat) : Int) := by
  obtain ⟨mon, h, _, _, _, hu, _⟩ :=
    lv_mem_monitor_builtin_percentages toyEngine toySplit mon_zero
      (by decide) (by decide) (by decide) (by decide)
  exact ⟨by decide, by decide, mon, h, hu⟩

/-- C9: for every snapshot computed by lv_mem_monitor_builtin in which the
free memory is split, free_biggest_size < free_size, and 100 * free_size does
not overflow 32 bits, the reported frag_pct is strictly greater than 0 (and at
most 100: it is 100 - floor(100 * free_biggest_size / free_size)). -/
theorem frag_pct_pos_of_split {T : Type} (e : TlsfEngine T) (st : State T)
    (mon_p mon : lv_mem_monitor_t)
    (hmon : lv_mem_monitor_builtin e st mon_p = some mon)
    (hsplit : mon.free_biggest_size < mon.free_size)
    (hmul : 100 * mon.free_size < 2 ^ 32) :
    0 < mon.frag_pct ∧ mon.frag_pct ≤ 100
      ∧ mon.frag_pct = 100 - 100 * mon.free_biggest_size / mon.free_size := by
  have hne : (lv_mem_monitor_walk e st mon_p).total_size ≠ 0 := by
    intro h0
    rw [(lv_mem_monitor_builtin_none_iff e st mon_p).mpr h0] at hmon
    exact absurd hmon (by simp)
  obtain ⟨mon1, hmon1, _, _, m3, m4, _, _, _, m8⟩ :=
    lv_mem_monitor_builtin_of_total_ne_zero e st mon_p hne
  rw [hmon, Option.some.injEq] at hmon1
  subst hmon1
  rw [← m3, ← m4, if_pos (by omega)] at m8
  have hq := frag_quotient_lt mon.free_biggest_size mon.free_size hsplit
  have hf := (frag_pct_of_eq mon.free_biggest_size mon.free_size hmul (le_of_lt hsplit)).2
  rw [m8, hf]
  generalize 100 * mon.free_biggest_size / mon.free_size = q at hq
  omega

theorem frag_pct_pos_of_split_witness :
    (∃ mon, lv_mem_monitor_builtin toyEngine toySplit mon_zero = some mon
        ∧ mon.free_biggest_size = 64 ∧ mon.free_size = 128 ∧ mon.free_cnt = 2
        ∧ mon.frag_pct = 50 ∧ 0 < mon.frag_pct) := by
  have hval : (lv_mem_monitor_builtin toyEngine toySplit mon_zero).map
      (fun mon => (mon.free_biggest_size, mon.free_size, mon.free_cnt, mon.frag_pct))
      = some (64, 128, 2, 50) := by decide
  cases hm : lv_mem_monitor_builtin toyEngine toySplit mon_zero with
  | none => rw [hm] at hval; exact absurd hval (by simp)
  | some mon =>
    rw [hm, Option.map_some', Option.some.injEq] at hval
    simp only [Prod.mk.injEq] at hval
    obtain ⟨h1, h2, h3, h4⟩ := hval
    exact ⟨mon, rfl, h1, h2, h3, h4,
      (frag_pct_pos_of_split toyEngine toySplit mon_zero mon hm
        (by rw [h1, h2]; decide) (by rw [h2]; decide)).1⟩

/-- C10: for every registry and every pool handle that is not an entry of the
registry, lv_mem_builtin_remove_pool changes nothing: the registry (entries
and order), the engine state (the engine is not asked to remove a pool),
cur_used and max_used are as before, and the monitor gives after the call
what it gave before it. -/
theorem lv_mem_builtin_remove_pool_unknown {T : Type} (e : TlsfEngine T)
    (st : State T) (pool : lv_pool_t) (h : pool ∉ st.pools) :
    lv_mem_builtin_remove_pool e st pool = st
      ∧ (lv_mem_builtin_remove_pool e st pool).pool_ll = st.pool_ll
      ∧ (lv_mem_builtin_remove_pool e st pool).tlsf = st.tlsf
      ∧ (lv_mem_builtin_remove_pool e st pool).cur_used = st.cur_used
      ∧ (lv_mem_builtin_remove_pool e st pool).max_used = st.max_used
      ∧ ∀ mon_p, lv_mem_monitor_builtin e (lv_mem_builtin_remove_pool e st pool) mon_p
          = lv_mem_monitor_builtin e st mon_p := by
  have hst : lv_mem_builtin_remove_pool e st pool = st := by
    unfold lv_mem_builtin_remove_pool
    rw [remove_pool_scan_eq_none pool st.pool_ll h]
  rw [hst]
  exact ⟨rfl, rfl, rfl, rfl, rfl, fun _ => rfl⟩

theorem lv_mem_builtin_remove_pool_unknown_witness :
    9999 ∉ toyTwoPools.pools
      ∧ lv_mem_builtin_remove_pool toyEngine toyTwoPools 9999 = toyTwoPools
      ∧ (lv_mem_builtin_remove_pool toyEngine toyTwoPools 9999).pools = [4096, 8192]
      ∧ (lv_mem_builtin_remove_pool toyEngine toyTwoPools 9999).tlsf.removed = []
      ∧ (lv_mem_builtin_remove_pool toyEngine toyTwoPools 4096).tlsf.removed = [4096] :=
  ⟨by decide,
    (lv_mem_builtin_remove_pool_unknown toyEngine toyTwoPools 9999 (by decide)).1,
    by decide, by decide, by decide⟩

/-! ## The integrity validator: claim C11 -/

theorem test_pools_scan_all_pass {T : Type} (e : TlsfEngine T)
    (pools : List lv_pool_t) :
    ∀ tlsf : T, (∀ x ∈ pool_check_results e tlsf pools, x = 0) →
      test_pools_scan e tlsf pools
        = (pool_check_state e tlsf pools, lv_res_t.LV_RES_OK) := by
  induction pools with
  | nil => intro tlsf _; rfl
  | cons p rest ih =>
    intro tlsf h
    have hp : (e.lv_tlsf_check_pool tlsf p).2 = 0 :=
      h _ (List.mem_cons_self _ _)
    have hrest : ∀ x ∈ pool_check_results e (e.lv_tlsf_check_pool tlsf p).1 rest, x = 0 :=
      fun x hx => h x (List.mem_cons_of_mem _ hx)
    unfold test_pools_scan
    dsimp only
    rw [if_neg (not_not.mpr hp), ih _ hrest]
    rfl

theorem test_pools_scan_first_failure {T : Type} (e : TlsfEngine T)
    (pre : List lv_pool_t) (p : lv_pool_t) (post : List lv_pool_t) :
    ∀ tlsf : T, (∀ x ∈ pool_check_results e tlsf pre, x = 0) →
      (e.lv_tlsf_check_pool (pool_check_state e tlsf pre) p).2 ≠ 0 →
      test_pools_scan e tlsf (pre ++ p :: post)
        = ((e.lv_tlsf_check_pool (pool_check_state e tlsf pre) p).1,
            lv_res_t.LV_RES_INV) := by
  induction pre with
  | nil =>
    intro tlsf _ hp
    have hp1 : (e.lv_tlsf_check_pool tlsf p).2 ≠ 0 := hp
    show test_pools_scan e tlsf (p :: post) = ((e.lv_tlsf_check_pool tlsf p).1, _)
    unfold test_pools_scan
    dsimp only
    rw [if_pos hp1]
  | cons q rest ih =>
    intro tlsf h hp
    have hq : (e.lv_tlsf_check_pool tlsf q).2 = 0 :=
      h _ (List.mem_cons_self _ _)
    have hrest : ∀ x ∈ pool_check_results e (e.lv_tlsf_check_pool tlsf q).1 rest, x = 0 :=
      fun x hx => h x (List.mem_cons_of_mem _ hx)
    show test_pools_scan e tlsf (q :: (rest ++ p :: post)) = _
    unfold test_pools_scan
    dsimp only
    rw [if_neg (not_not.mpr hq)]
    exact ih _ hrest hp

theorem test_pools_scan_inv_iff {T : Type} (e : TlsfEngine T)
    (pools : List lv_pool_t) :
    ∀ tlsf : T, (test_pools_scan e tlsf pools).2 = lv_res_t.LV_RES_INV
      ↔ ∃ x ∈ pool_check_results e tlsf pools, x ≠ 0 := by
  induction pools with
  | nil =>
    intro tlsf
    constructor
    · intro h
      have h1 : lv_res_t.LV_RES_OK = lv_res_t.LV_RES_INV := h
      exact absurd h1 (by decide)
    · rintro ⟨x, hx, _⟩; exact absurd hx (List.not_mem_nil x)
  | cons p rest ih =>
    intro tlsf
    by_cases hp : (e.lv_tlsf_check_pool tlsf p).2 = 0
    · have hstep : test_pools_scan e tlsf (p :: rest)
          = test_pools_scan e (e.lv_tlsf_check_pool tlsf p).1 rest := by
        conv => lhs; unfold test_pools_scan
        dsimp only
        rw [if_neg (not_not.mpr hp)]
      rw [hstep, ih]
      constructor
      · rintro ⟨x, hx, hne⟩
        exact ⟨x, List.mem_cons_of_mem _ hx, hne⟩
      · rintro ⟨x, hx, hne⟩
        rcases List.mem_cons.mp hx with h | h
        · rw [h] at hne; exact absurd hp hne
        · exact ⟨x, h, hne⟩
    · have hstep : test_pools_scan e tlsf (p :: rest)
          = ((e.lv_tlsf_check_pool tlsf p).1, lv_res_t.LV_RES_INV) := by
        conv => lhs; unfold test_pools_scan
        dsimp only
        rw [if_pos hp]
      rw [hstep]
      constructor
      · intro _
        exact ⟨_, List.mem_cons_self _ _, hp⟩
      · intro _; rfl

theorem pool_check_results_read_only {T : Type} (e : TlsfEngine T)
    (hro : ∀ t p, (e.lv_tlsf_check_pool t p).1 = t) (tlsf : T)
    (pools : List lv_pool_t) :
    pool_check_results e tlsf pools
      = pools.map (fun p => (e.lv_tlsf_check_pool tlsf p).2) := by
  induction pools with
  | nil => rfl
  | cons p rest ih =>
    show (e.lv_tlsf_check_pool tlsf p).2
        :: pool_check_results e (e.lv_tlsf_check_pool tlsf p).1 rest = _
    rw [hro, ih]
    rfl

theorem lv_mem_test_builtin_heap_fail {T : Type} (e : TlsfEngine T) (st : State T)
    (h : (e.lv_tlsf_check st.tlsf).2 ≠ 0) :
    lv_mem_test_builtin e st
      = ({ st with tlsf := (e.lv_tlsf_check st.tlsf).1 }, lv_res_t.LV_RES_INV) := by
  unfold lv_mem_test_builtin
  dsimp only
  rw [if_pos h]

theorem lv_mem_test_builtin_heap_ok {T : Type} (e : TlsfEngine T) (st : State T)
    (h : (e.lv_tlsf_check st.tlsf).2 = 0) :
    lv_mem_test_builtin e st
      = ({ st with
            tlsf := (test_pools_scan e (e.lv_tlsf_check st.tlsf).1 st.pools).1 },
          (test_pools_scan e (e.lv_tlsf_check st.tlsf).1 st.pools).2) := by
  unfold lv_mem_test_builtin
  dsimp only
  rw [if_neg (not_not.mpr h)]

/-- C11: for every registry and every outcome of the checks of the engine,
lv_mem_test_builtin returns LV_RES_INV if and only if the whole-heap check
fails or the per-pool check fails for at least one registered pool, and
LV_RES_OK otherwise.  The per-pool checks are made in registry order: when
the whole-heap check fails the engine is left as that check left it (no pool
is checked); when the first failing pool is p, the engine is left as the
checks of the pools before p and of p left it (no pool after p is checked);
when all pass, every pool has been checked once, in order. -/
theorem lv_mem_test_builtin_result {T : Type} (e : TlsfEngine T) (st : State T) :
    ((lv_mem_test_builtin e st).2 = lv_res_t.LV_RES_INV
        ↔ ((e.lv_tlsf_check st.tlsf).2 ≠ 0
            ∨ ∃ x ∈ pool_check_results e (e.lv_tlsf_check st.tlsf).1 st.pools, x ≠ 0))
      ∧ ((lv_mem_test_builtin e st).2 = lv_res_t.LV_RES_OK
        ↔ ((e.lv_tlsf_check st.tlsf).2 = 0
            ∧ ∀ x ∈ pool_check_results e (e.lv_tlsf_check st.tlsf).1 st.pools, x = 0))
      ∧ ((e.lv_tlsf_check st.tlsf).2 ≠ 0 →
          (lv_mem_test_builtin e st).1.tlsf = (e.lv_tlsf_check st.tlsf).1)
      ∧ (∀ pre p post, (e.lv_tlsf_check st.tlsf).2 = 0 →
          st.pools = pre ++ p :: post →
          (∀ x ∈ pool_check_results e (e.lv_tlsf_check st.tlsf).1 pre, x = 0) →
          (e.lv_tlsf_check_pool
            (pool_check_state e (e.lv_tlsf_check st.tlsf).1 pre) p).2 ≠ 0 →
          (lv_mem_test_builtin e st).2 = lv_res_t.LV_RES_INV
            ∧ (lv_mem_test_builtin e st).1.tlsf
                = (e.lv_tlsf_check_pool
                    (pool_check_state e (e.lv_tlsf_check st.tlsf).1 pre) p).1)
      ∧ ((e.lv_tlsf_check st.tlsf).2 = 0 →
          (∀ x ∈ pool_check_results e (e.lv_tlsf_check st.tlsf).1 st.pools, x = 0) →
          (lv_mem_test_builtin e st).1.tlsf
            = pool_check_state e (e.lv_tlsf_check st.tlsf).1 st.pools)
      ∧ ((∀ t p, (e.lv_tlsf_check_pool t p).1 = t) →
          ((lv_mem_test_builtin e st).2 = lv_res_t.LV_RES_INV
            ↔ ((e.lv_tlsf_check st.tlsf).2 ≠ 0
                ∨ ∃ p ∈ st.pools,
                    (e.lv_tlsf_check_pool (e.lv_tlsf_check st.tlsf).1 p).2 ≠ 0)))
      ∧ (lv_mem_test_builtin e st).1.pool_ll = st.pool_ll := by
  have hinv : (lv_mem_test_builtin e st).2 = lv_res_t.LV_RES_INV
      ↔ ((e.lv_tlsf_check st.tlsf).2 ≠ 0
          ∨ ∃ x ∈ pool_check_results e (e.lv_tlsf_check st.tlsf).1 st.pools, x ≠ 0) := by
    by_cases h0 : (e.lv_tlsf_check st.tlsf).2 = 0
    · rw [lv_mem_test_builtin_heap_ok e st h0]
      show (test_pools_scan e (e.lv_tlsf_check st.tlsf).1 st.pools).2 = _ ↔ _
      rw [test_pools_scan_inv_iff]
      constructor
      · intro h; exact Or.inr h
      · rintro (h | h)
        · exact absurd h0 h
        · exact h
    · rw [lv_mem_test_builtin_heap_fail e st h0]
      constructor
      · intro _; exact Or.inl h0
      · intro _; rfl
  refine ⟨hinv, ?_, ?_, ?_, ?_, ?_, ?_⟩
  · constructor
    · intro hok
      have hni : ¬ (lv_mem_test_builtin e st).2 = lv_res_t.LV_RES_INV := by
        rw [hok]; decide
      rw [hinv] at hni
      push_neg at hni
      exact hni
    · rintro ⟨h0, hall⟩
      cases hres : (lv_mem_test_builtin e st).2 with
      | LV_RES_OK => rfl
      | LV_RES_INV =>
        rcases hinv.mp hres with h | ⟨x, hx, hne⟩
        · exact absurd h0 h
        · exact absurd (hall x hx) hne
  · intro h0
    rw [lv_mem_test_builtin_heap_fail e st h0]
  · intro pre p post h0 hsplit hpre hp
    rw [lv_mem_test_builtin_heap_ok e st h0, hsplit,
      test_pools_scan_first_failure e pre p post _ hpre hp]
    exact ⟨rfl, rfl⟩
  · intro h0 hall
    rw [lv_mem_test_builtin_heap_ok e st h0, test_pools_scan_all_pass e _ _ hall]
  · intro hro
    rw [hinv, pool_check_results_read_only e hro]
    constructor
    · rintro (h | ⟨x, hx, hne⟩)
      · exact Or.inl h
      · obtain ⟨p, hp, hpe⟩ := List.mem_map.mp hx
        exact Or.inr ⟨p, hp, by rw [hpe]; exact hne⟩
    · rintro (h | ⟨p, hp, hne⟩)
      · exact Or.inl h
      · exact Or.inr ⟨_, List.mem_map.mpr ⟨p, hp, rfl⟩, hne⟩
  · unfold lv_mem_test_builtin
    dsimp only
    split <;> rfl

theorem lv_mem_test_builtin_result_witness :
    toyCorrupt.pools = [4096] ++ 8192 :: [12288]
      ∧ (lv_mem_test_builtin toyEngine toyCorrupt).2 = lv_res_t.LV_RES_INV
      ∧ (lv_mem_test_builtin toyEngine toyCorrupt).1.tlsf.checked = [4096, 8192]
      ∧ (lv_mem_test_builtin toyEngine toyHeapCorrupt).2 = lv_res_t.LV_RES_INV
      ∧ (lv_mem_test_builtin toyEngine toyHeapCorrupt).1.tlsf.checked = []
      ∧ (lv_mem_test_builtin toyEngine toyTwoPools).2 = lv_res_t.LV_RES_OK
      ∧ (lv_mem_test_builtin toyEngine toyTwoPools).1.tlsf.checked = [4096, 8192]
      ∧ (lv_mem_test_builtin toyEngine toyCorrupt).1.tlsf
          = (toyEngine.lv_tlsf_check_pool
              (pool_check_state toyEngine (toyEngine.lv_tlsf_check toyCorrupt.tlsf).1
                [4096]) 8192).1 :=
  ⟨by decide, by decide, by decide, by decide, by decide, by decide, by decide,
    ((lv_mem_test_builtin_result toyEngine toyCorrupt).2.2.2.1 [4096] 8192 [12288]
      (by decide) (by decide) (by decide) (by decide)).2⟩

/-! ## The registry: lemmas -/

theorem remove_pool_scan_split (pool : lv_pool_t) (ll : List PoolNode)
    (h : pool ∈ ll.map PoolNode.pool) :
    ∃ pre n post, ll = pre ++ n :: post ∧ n.pool = pool
      ∧ (∀ m ∈ pre, m.pool ≠ pool)
      ∧ remove_pool_scan pool ll = some (n, pre ++ post) := by
  induction ll with
  | nil => simp at h
  | cons x rest ih =>
    by_cases hx : x.pool = pool
    · refine ⟨[], x, rest, rfl, hx, fun m hm => absurd hm (List.not_mem_nil m), ?_⟩
      unfold remove_pool_scan
      rw [if_pos hx]
      rfl
    · have hrest : pool ∈ rest.map PoolNode.pool := by
        simp only [List.map_cons, List.mem_cons] at h
        rcases h with h1 | h1
        · exact absurd h1.symm hx
        · exact h1
      obtain ⟨pre, n, post, hsplit, hn, hpre, hscan⟩ := ih hrest
      refine ⟨x :: pre, n, post, by rw [hsplit]; rfl, hn, ?_, ?_⟩
      · intro m hm
        rcases List.mem_cons.mp hm with h1 | h1
        · rw [h1]; exact hx
        · exact hpre m h1
      · unfold remove_pool_scan
        rw [if_neg hx, hscan]
        rfl

theorem pools_erase_of_split (pool : lv_pool_t) (pre : List PoolNode) (n : PoolNode)
    (post : List PoolNode) (hn : n.pool = pool) (hpre : ∀ m ∈ pre, m.pool ≠ pool) :
    ((pre ++ n :: post).map PoolNode.pool).erase pool
      = (pre ++ post).map PoolNode.pool := by
  have hnot : pool ∉ pre.map PoolNode.pool := by
    intro hm
    obtain ⟨m, hm1, hm2⟩ := List.mem_map.mp hm
    exact hpre m hm1 hm2
  rw [List.map_append, List.map_cons, hn, List.erase_append_right _ hnot,
    List.erase_cons_head, List.map_append]

theorem lv_mem_builtin_remove_pool_of_scan {T : Type} (e : TlsfEngine T)
    (st : State T) (pool : lv_pool_t) (n : PoolNode) (ll : List PoolNode)
    (h : remove_pool_scan pool st.pool_ll = some (n, ll)) :
    (lv_mem_builtin_remove_pool e st pool).pool_ll = ll
      ∧ (lv_mem_builtin_remove_pool e st pool).tlsf
          = e.lv_tlsf_remove_pool (e.lv_tlsf_free st.tlsf n.node).1 pool
      ∧ (lv_mem_builtin_remove_pool e st pool).cur_used
          = st.cur_used - (e.lv_tlsf_free st.tlsf n.node).2
      ∧ (lv_mem_builtin_remove_pool e st pool).max_used = st.max_used := by
  unfold lv_mem_builtin_remove_pool
  rw [h]
  dsimp only
  show (lv_free_builtin e { st with pool_ll := ll } n.node).pool_ll = ll
    ∧ e.lv_tlsf_remove_pool (lv_free_builtin e { st with pool_ll := ll } n.node).tlsf pool
        = _
    ∧ (lv_free_builtin e { st with pool_ll := ll } n.node).cur_used = _
    ∧ (lv_free_builtin e { st with pool_ll := ll } n.node).max_used = _
  rw [lv_free_builtin_pool_ll, lv_free_builtin_tlsf, lv_free_builtin_cur_used,
    lv_free_builtin_max_used]
  exact ⟨rfl, rfl, rfl, rfl⟩

theorem lv_mem_builtin_remove_pool_pools {T : Type} (e : TlsfEngine T)
    (st : State T) (pool : lv_pool_t) :
    (lv_mem_builtin_remove_pool e st pool).pools = st.pools.erase pool := by
  by_cases h : pool ∈ st.pools
  · obtain ⟨pre, n, post, hsplit, hn, hpre, hscan⟩ :=
      remove_pool_scan_split pool st.pool_ll h
    show (lv_mem_builtin_remove_pool e st pool).pool_ll.map PoolNode.pool
      = (st.pool_ll.map PoolNode.pool).erase pool
    rw [(lv_mem_builtin_remove_pool_of_scan e st pool n _ hscan).1, hsplit,
      pools_erase_of_split pool pre n post hn hpre]
  · have hst : lv_mem_builtin_remove_pool e st pool = st := by
      unfold lv_mem_builtin_remove_pool
      rw [remove_pool_scan_eq_none pool st.pool_ll h]
    rw [hst, List.erase_of_not_mem h]

theorem lv_mem_init_builtin_pools {T : Type} (cfg : Config) (e : TlsfEngine T)
    (st st1 : State T) (h : lv_mem_init_builtin cfg e st = some st1) :
    st1.pools = [e.lv_tlsf_get_pool st1.tlsf] := by
  obtain ⟨_, _, _, _, hp⟩ := lv_mem_init_builtin_result cfg e st st1 h
  show st1.pool_ll.map PoolNode.pool = _
  rw [hp]
  rfl

/-- C13: for every registry that holds the handle h,
lv_mem_builtin_remove_pool removes exactly one entry, the first one equal to
h, and keeps all other entries in their order; the node of that entry is
released with lv_free (its reported size is taken off cur_used) and then the
engine is told once to remove pool h: the engine state afterwards is the
result of one call of lv_tlsf_remove_pool with h on the state left by the
release of the node; in a registry without duplicates h is not registered
afterwards. -/
theorem lv_mem_builtin_remove_pool_known {T : Type} (e : TlsfEngine T)
    (st : State T) (h : lv_pool_t) (hmem : h ∈ st.pools) :
    (∃ pre n post, st.pool_ll = pre ++ n :: post ∧ n.pool = h
        ∧ (∀ m ∈ pre, m.pool ≠ h)
        ∧ (lv_mem_builtin_remove_pool e st h).pool_ll = pre ++ post
        ∧ (lv_mem_builtin_remove_pool e st h).tlsf
            = e.lv_tlsf_remove_pool (e.lv_tlsf_free st.tlsf n.node).1 h
        ∧ (lv_mem_builtin_remove_pool e st h).cur_used
            = st.cur_used - (e.lv_tlsf_free st.tlsf n.node).2
        ∧ (lv_mem_builtin_remove_pool e st h).max_used = st.max_used)
      ∧ (∃ pre post, st.pools = pre ++ h :: post ∧ h ∉ pre
          ∧ (lv_mem_builtin_remove_pool e st h).pools = pre ++ post)
      ∧ (lv_mem_builtin_remove_pool e st h).pools = st.pools.erase h
      ∧ (lv_mem_builtin_remove_pool e st h).pools.length + 1 = st.pools.length
      ∧ (st.pools.Nodup → h ∉ (lv_mem_builtin_remove_pool e st h).pools) := by
  have hreg := lv_mem_builtin_remove_pool_pools e st h
  obtain ⟨pre, n, post, hsplit, hn, hpre, hscan⟩ :=
    remove_pool_scan_split h st.pool_ll hmem
  obtain ⟨r1, r2, r3, r4⟩ := lv_mem_builtin_remove_pool_of_scan e st h n _ hscan
  obtain ⟨pre1, post1, hpre1, hsplit1, herase1⟩ := List.exists_erase_eq hmem
  refine ⟨⟨pre, n, post, hsplit, hn, hpre, r1, r2, r3, r4⟩,
    ⟨pre1, post1, hsplit1, hpre1, by rw [hreg, herase1]⟩, hreg, ?_, ?_⟩
  · rw [hreg, List.length_erase_of_mem hmem]
    have hpos : 0 < st.pools.length := List.length_pos_of_mem hmem
    omega
  · intro hnd
    rw [hreg]
    exact hnd.not_mem_erase

theorem lv_mem_builtin_remove_pool_known_witness :
    toyTwoPools.pool_ll = [{ node := 4112, pool := 4096 }, { node := 4136, pool := 8192 }]
      ∧ toyTwoPools.cur_used = 48
      ∧ (lv_mem_builtin_remove_pool toyEngine toyTwoPools 8192).pool_ll
          = [{ node := 4112, pool := 4096 }]
      ∧ (lv_mem_builtin_remove_pool toyEngine toyTwoPools 8192).cur_used = 24
      ∧ (lv_mem_builtin_remove_pool toyEngine toyTwoPools 8192).tlsf.removed = [8192]
      ∧ (lv_mem_builtin_remove_pool toyEngine toyTwoPools 8192).tlsf
          = toyEngine.lv_tlsf_remove_pool
              (toyEngine.lv_tlsf_free toyTwoPools.tlsf 4136).1 8192
      ∧ (lv_mem_builtin_remove_pool toyEngine toyTwoPools 8192).pools
          = toyTwoPools.pools.erase 8192
      ∧ 8192 ∉ (lv_mem_builtin_remove_pool toyEngine toyTwoPools 8192).pools := by
  have h := lv_mem_builtin_remove_pool_known toyEngine toyTwoPools 8192 (by decide)
  exact ⟨by decide, by decide, by decide, by decide, by decide, by decide,
    h.2.2.1, h.2.2.2.2 (by decide)⟩

/-- C14: for every prior registry, however many pools were added, after
lv_mem_deinit_builtin the registry has exactly one entry, the primary pool of
the freshly created engine instance; the result does not depend on the prior
registry, and no handle other than that primary pool is registered.  The
function returns exactly when the fresh engine hands out the node for that
entry (LV_ASSERT_MALLOC stops the program otherwise). -/
theorem lv_mem_deinit_builtin_registry {T : Type} (cfg : Config)
    (e : TlsfEngine T) (st : State T) :
    (∀ st1, lv_mem_deinit_builtin cfg e st = some st1 →
        st1.tlsf
            = (e.lv_tlsf_malloc
                (e.lv_tlsf_create_with_pool cfg.work_mem cfg.LV_MEM_SIZE)
                cfg.ll_node_bytes).1
          ∧ st1.pools = [e.lv_tlsf_get_pool st1.tlsf]
          ∧ st1.pools.length = 1
          ∧ st1.pool_ll.length = 1
          ∧ (∀ p ∈ st.pools, p ≠ e.lv_tlsf_get_pool st1.tlsf → p ∉ st1.pools)
          ∧ (∀ st2 st3 : State T, lv_mem_deinit_builtin cfg e st2 = some st3 →
              st3.pools = st1.pools))
      ∧ ((e.lv_tlsf_malloc (e.lv_tlsf_create_with_pool cfg.work_mem cfg.LV_MEM_SIZE)
            cfg.ll_node_bytes).2 ≠ 0 →
          ∃ st1, lv_mem_deinit_builtin cfg e st = some st1)
      ∧ ((e.lv_tlsf_malloc (e.lv_tlsf_create_with_pool cfg.work_mem cfg.LV_MEM_SIZE)
            cfg.ll_node_bytes).2 = 0 →
          lv_mem_deinit_builtin cfg e st = none) := by
  refine ⟨?_, ?_, ?_⟩
  · intro st1 h
    rw [lv_mem_deinit_builtin_eq] at h
    have hp := lv_mem_init_builtin_pools cfg e _ st1 h
    obtain ⟨_, ht, _, _, hll⟩ := lv_mem_init_builtin_result cfg e _ st1 h
    refine ⟨ht, hp, by rw [hp]; rfl, by rw [hll]; rfl, ?_, ?_⟩
    · intro p _ hne hmem
      rw [hp] at hmem
      exact hne (List.mem_singleton.mp hmem)
    · intro st2 st3 h3
      rw [lv_mem_deinit_builtin_eq] at h3
      have hp3 := lv_mem_init_builtin_pools cfg e _ st3 h3
      obtain ⟨_, ht3, _⟩ := lv_mem_init_builtin_result cfg e _ st3 h3
      rw [hp3, hp, ht3, ht]
  · intro hnode
    exact ⟨_, by rw [lv_mem_deinit_builtin_eq]; exact lv_mem_init_builtin_some cfg e _ hnode⟩
  · intro hnode
    rw [lv_mem_deinit_builtin_eq]
    exact lv_mem_init_builtin_none cfg e _ hnode

theorem lv_mem_deinit_builtin_registry_witness :
    toyTwoPools.pools = [4096, 8192]
      ∧ (lv_mem_deinit_builtin cfg1024 toyEngine toyTwoPools).map (fun s => s.pools)
          = some [4096]
      ∧ ∃ st1, lv_mem_deinit_builtin cfg1024 toyEngine toyTwoPools = some st1
          ∧ st1.pools = [toyEngine.lv_tlsf_get_pool st1.tlsf]
          ∧ 8192 ∉ st1.pools
          ∧ st1.pools.length = 1 := by
  have hv : (lv_mem_deinit_builtin cfg1024 toyEngine toyTwoPools).map (fun s => s.pools)
      = some [4096] := by decide
  refine ⟨by decide, hv, ?_⟩
  cases hd : lv_mem_deinit_builtin cfg1024 toyEngine toyTwoPools with
  | none => rw [hd] at hv; exact absurd hv (by simp)
  | some st1 =>
    rw [hd, Option.map_some', Option.some.injEq] at hv
    obtain ⟨_, h2, h3, _, h5, _⟩ :=
      (lv_mem_deinit_builtin_registry cfg1024 toyEngine toyTwoPools).1 st1 hd
    refine ⟨st1, rfl, h2, ?_, h3⟩
    rw [hv]
    decide

/-- C15: for every state, pointer and new size, lv_realloc_builtin returns
exactly what lv_tlsf_realloc returns, NULL or not, and leaves cur_used and
max_used (and the registry) as they were, on both paths. -/
theorem lv_realloc_builtin_passthrough {T : Type} (e : TlsfEngine T)
    (st : State T) (p : Ptr) (new_size : Nat) :
    (lv_realloc_builtin e st p new_size).2 = (e.lv_tlsf_realloc st.tlsf p new_size).2
      ∧ (lv_realloc_builtin e st p new_size).1.tlsf
          = (e.lv_tlsf_realloc st.tlsf p new_size).1
      ∧ (lv_realloc_builtin e st p new_size).1.cur_used = st.cur_used
      ∧ (lv_realloc_builtin e st p new_size).1.max_used = st.max_used
      ∧ (lv_realloc_builtin e st p new_size).1.pool_ll = st.pool_ll
      ∧ ((e.lv_tlsf_realloc st.tlsf p new_size).2 = 0 →
          (lv_realloc_builtin e st p new_size).2 = 0
            ∧ (lv_realloc_builtin e st p new_size).1.cur_used = st.cur_used
            ∧ (lv_realloc_builtin e st p new_size).1.max_used = st.max_used)
      ∧ ((e.lv_tlsf_realloc st.tlsf p new_size).2 ≠ 0 →
          (lv_realloc_builtin e st p new_size).2 ≠ 0
            ∧ (lv_realloc_builtin e st p new_size).1.cur_used = st.cur_used
            ∧ (lv_realloc_builtin e st p new_size).1.max_used = st.max_used) :=
  ⟨rfl, rfl, rfl, rfl, rfl, fun h => ⟨h, rfl, rfl⟩, fun h => ⟨h, rfl, rfl⟩⟩

/-! ## The high-water mark: claim C16 -/

theorem foldl_max_eq (l : List Nat) : ∀ a : Nat, l.foldl max a = max a (l.foldl max 0) := by
  induction l with
  | nil => intro a; simp
  | cons x xs ih =>
    intro a
    rw [List.foldl_cons, List.foldl_cons, ih (max a x), ih (max 0 x)]
    simp only [Nat.zero_max, max_assoc]

theorem max_cur_used_cons {T : Type} (s : State T) (states : List (State T)) :
    max_cur_used (s :: states) = max s.cur_used (max_cur_used states) := by
  unfold max_cur_used
  rw [List.map_cons, List.foldl_cons, foldl_max_eq, Nat.zero_max]

theorem le_max_cur_used {T : Type} (states : List (State T)) :
    ∀ s ∈ states, s.cur_used ≤ max_cur_used states := by
  induction states with
  | nil => intro s hs; exact absurd hs (List.not_mem_nil s)
  | cons t rest ih =>
    intro s hs
    rw [max_cur_used_cons]
    rcases List.mem_cons.mp hs with h | h
    · rw [h]; exact le_max_left _ _
    · exact le_trans (ih s h) (le_max_right _ _)

theorem max_cur_used_mem {T : Type} (states : List (State T)) (hne : states ≠ []) :
    ∃ s ∈ states, s.cur_used = max_cur_used states := by
  induction states with
  | nil => exact absurd rfl hne
  | cons t rest ih =>
    rw [max_cur_used_cons]
    by_cases hrest : rest = []
    · subst hrest
      exact ⟨t, List.mem_cons_self _ _, by simp [max_cur_used]⟩
    · obtain ⟨s, hs, hse⟩ := ih hrest
      by_cases hcmp : max_cur_used rest ≤ t.cur_used
      · exact ⟨t, List.mem_cons_self _ _, by rw [max_eq_left hcmp]⟩
      · exact ⟨s, List.mem_cons_of_mem _ hs,
          by rw [max_eq_right (le_of_not_le hcmp)]; exact hse⟩

theorem facade_history_ne_nil {T : Type} (e : TlsfEngine T) (st : State T)
    (calls : List FacadeCall) : facade_history e st calls ≠ [] := by
  cases calls <;> simp [facade_history]

theorem facade_history_head {T : Type} (e : TlsfEngine T) (st : State T)
    (calls : List FacadeCall) : st ∈ facade_history e st calls := by
  cases calls <;> simp [facade_history]

theorem facade_history_getLast {T : Type} (e : TlsfEngine T)
    (calls : List FacadeCall) :
    ∀ st : State T, (facade_history e st calls).getLast? = some (facade_run e st calls) := by
  induction calls with
  | nil => intro st; rfl
  | cons c cs ih =>
    intro st
    show (st :: facade_history e (c.apply e st) cs).getLast? = _
    rw [List.getLast?_cons, ih]
    rfl

theorem max_used_eq_max_cur_used {T : Type} (e : TlsfEngine T)
    (calls : List FacadeCall) :
    ∀ st : State T, CountersOk st →
      (facade_run e st calls).max_used
        = max st.max_used (max_cur_used (facade_history e st calls)) := by
  induction calls with
  | nil =>
    intro st h
    show st.max_used = max st.max_used (max_cur_used [st])
    rw [max_cur_used_cons]
    have h1 := h.1
    simp only [max_cur_used, List.map_nil, List.foldl_nil]
    omega
  | cons c cs ih =>
    intro st h
    have hnext := ih (c.apply e st) (CountersOk_apply e st c h)
    have hhead := le_max_cur_used (facade_history e (c.apply e st) cs) (c.apply e st)
      (facade_history_head e _ cs)
    show (facade_run e (c.apply e st) cs).max_used
      = max st.max_used (max_cur_used (st :: facade_history e (c.apply e st) cs))
    rw [hnext, max_cur_used_cons]
    have h1 := h.1
    have hmono := max_used_le_apply e st c
    have hbound : (c.apply e st).max_used ≤ max st.max_used (c.apply e st).cur_used := by
      cases c with
      | malloc size =>
        show (lv_malloc_builtin e st size).1.max_used
          ≤ max st.max_used (lv_malloc_builtin e st size).1.cur_used
        rw [lv_malloc_builtin_max_used, lv_malloc_builtin_cur_used, max_comm]
      | realloc p new_size => exact le_max_left _ _
      | free p =>
        show (lv_free_builtin e st p).max_used ≤ _
        rw [lv_free_builtin_max_used]
        exact le_max_left _ _
    generalize max_cur_used (facade_history e (c.apply e st) cs) = hm at hhead ⊢
    generalize (c.apply e st).max_used = m1 at hmono hbound ⊢
    generalize (c.apply e st).cur_used = c1 at hhead hbound
    omega

theorem lv_mem_monitor_builtin_max_used {T : Type} (e : TlsfEngine T)
    (st : State T) (mon_p mon : lv_mem_monitor_t)
    (h : lv_mem_monitor_builtin e st mon_p = some mon) :
    mon.max_used = st.max_used := by
  have hne : (lv_mem_monitor_walk e st mon_p).total_size ≠ 0 := by
    intro h0
    rw [(lv_mem_monitor_builtin_none_iff e st mon_p).mpr h0] at h
    exact absurd h (by simp)
  obtain ⟨mon1, hmon1, _, _, _, _, _, m6, _⟩ :=
    lv_mem_monitor_builtin_of_total_ne_zero e st mon_p hne
  rw [h, Option.some.injEq] at hmon1
  subst hmon1
  exact m6

/-- C16: in every state reached from cur_used = 0, max_used = 0 by calls of
lv_malloc_builtin, lv_realloc_builtin and lv_free_builtin, max_used is the
largest value cur_used has held in any state of that history, the first and
the last state included (it bounds every such value and is one of them); and
whenever lv_mem_monitor_builtin returns a snapshot in that state, whatever
the engine enumerates, its max_used field is the max_used of the facade. -/
theorem max_used_is_high_water_mark {T : Type} (e : TlsfEngine T) (tlsf : T)
    (pool_ll : List PoolNode) (calls : List FacadeCall) :
    (facade_run e (start_state tlsf pool_ll) calls).max_used
        = max_cur_used (facade_history e (start_state tlsf pool_ll) calls)
      ∧ (facade_history e (start_state tlsf pool_ll) calls).getLast?
        = some (facade_run e (start_state tlsf pool_ll) calls)
      ∧ (∀ s ∈ facade_history e (start_state tlsf pool_ll) calls,
          s.cur_used ≤ (facade_run e (start_state tlsf pool_ll) calls).max_used)
      ∧ (∃ s ∈ facade_history e (start_state tlsf pool_ll) calls,
          s.cur_used = (facade_run e (start_state tlsf pool_ll) calls).max_used)
      ∧ (∀ mon_p mon,
          lv_mem_monitor_builtin e (facade_run e (start_state tlsf pool_ll) calls) mon_p
              = some mon →
            mon.max_used = (facade_run e (start_state tlsf pool_ll) calls).max_used)
      ∧ (∀ mon_p,
          (lv_mem_monitor_walk e (facade_run e (start_state tlsf pool_ll) calls)
              mon_p).total_size ≠ 0 →
            ∃ mon,
              lv_mem_monitor_builtin e (facade_run e (start_state tlsf pool_ll) calls) mon_p
                  = some mon
                ∧ mon.max_used
                  = max_cur_used (facade_history e (start_state tlsf pool_ll) calls)) := by
  have hok : CountersOk (start_state tlsf pool_ll) :=
    ⟨le_refl _, Nat.pos_of_ne_zero (by decide)⟩
  have hmax : (facade_run e (start_state tlsf pool_ll) calls).max_used
      = max_cur_used (facade_history e (start_state tlsf pool_ll) calls) := by
    rw [max_used_eq_max_cur_used e calls _ hok]
    exact Nat.zero_max _
  refine ⟨hmax, facade_history_getLast e calls _, ?_, ?_, ?_, ?_⟩
  · intro s hs
    rw [hmax]
    exact le_max_cur_used _ s hs
  · rw [hmax]
    exact max_cur_used_mem _ (facade_history_ne_nil e _ calls)
  · intro mon_p mon h
    exact lv_mem_monitor_builtin_max_used e _ mon_p mon h
  · intro mon_p hne
    obtain ⟨mon, hmon, _, _, _, _, _, m6, _⟩ :=
      lv_mem_monitor_builtin_of_total_ne_zero e _ mon_p hne
    exact ⟨mon, hmon, by rw [m6, hmax]⟩

theorem max_used_is_high_water_mark_witness :
    toyZero = start_state toyInit.tlsf toyInit.pool_ll
      ∧ (facade_history toyEngine toyZero toyFacadeCalls).map (fun s => s.cur_used)
          = [0, 100, 150, 50, 50, 70]
      ∧ (facade_run toyEngine toyZero toyFacadeCalls).cur_used = 70
      ∧ (facade_run toyEngine toyZero toyFacadeCalls).max_used = 150
      ∧ (lv_mem_monitor_builtin toyEngine
            (facade_run toyEngine toyZero toyFacadeCalls) mon_zero).map
          (fun mon => mon.max_used) = some 150
      ∧ (facade_run toyEngine (start_state toyInit.tlsf toyInit.pool_ll)
            toyFacadeCalls).max_used
          = max_cur_used (facade_history toyEngine
              (start_state toyInit.tlsf toyInit.pool_ll) toyFacadeCalls) :=
  ⟨rfl, by decide, by decide, by decide, by decide,
    (max_used_is_high_water_mark toyEngine toyInit.tlsf toyInit.pool_ll toyFacadeCalls).1⟩

/-! ## Bounds of the snapshot, the division, the round trip: claims C17 to C19 -/

theorem sum_sizes_eq_zero_iff (bs : List Block) :
    sum_sizes bs = 0 ↔ ∀ b ∈ bs, b.size = 0 := by
  constructor
  · intro h b hb
    have hle := size_le_sum_sizes bs b hb
    omega
  · intro h
    induction bs using List.reverseRecOn with
    | nil => rfl
    | append_singleton l a ih =>
      rw [sum_sizes_snoc, ih (fun b hb => h b (List.mem_append.mpr (Or.inl hb))),
        h a (by simp)]

theorem lv_mem_monitor_walk_total_size {T : Type} (e : TlsfEngine T) (st : State T)
    (mon_p : lv_mem_monitor_t) :
    (lv_mem_monitor_walk e st mon_p).total_size
      = sum_sizes (registry_blocks e st) % UINT32_MOD := by
  rw [lv_mem_monitor_walk_eq]
  exact (walk_sums _).1

/-- C17: for every registry and every enumerated block sequence with
total_size > 0 and without 32-bit overflow in the sums or in 100 * free_size,
lv_mem_monitor_builtin produces a snapshot with free_biggest_size <= free_size
<= total_size, and both percentages are valid: 0 <= used_pct <= 100 and 0 <=
frag_pct <= 100, each being 100 minus a quotient that is at most 100 (no
unsigned wrap in the subtraction). -/
theorem lv_mem_monitor_builtin_bounds {T : Type} (e : TlsfEngine T) (st : State T)
    (mon_p : lv_mem_monitor_t)
    (htotal : 0 < sum_sizes (registry_blocks e st))
    (hsum : sum_sizes (registry_blocks e st) < 2 ^ 32)
    (hmul : 100 * sum_sizes (free_blocks (registry_blocks e st)) < 2 ^ 32) :
    ∃ mon, lv_mem_monitor_builtin e st mon_p = some mon
      ∧ mon.total_size = sum_sizes (registry_blocks e st)
      ∧ mon.free_size = sum_sizes (free_blocks (registry_blocks e st))
      ∧ 0 < mon.total_size
      ∧ mon.free_biggest_size ≤ mon.free_size
      ∧ mon.free_size ≤ mon.total_size
      ∧ 0 ≤ mon.used_pct ∧ mon.used_pct ≤ 100
      ∧ 0 ≤ mon.frag_pct ∧ mon.frag_pct ≤ 100
      ∧ 100 * mon.free_size / mon.total_size ≤ 100
      ∧ mon.used_pct + 100 * mon.free_size / mon.total_size = 100
      ∧ (0 < mon.free_size →
          100 * mon.free_biggest_size / mon.free_size ≤ 100
            ∧ mon.frag_pct + 100 * mon.free_biggest_size / mon.free_size = 100) := by
  obtain ⟨o1, o2, _, o4, o5⟩ := walk_order_of_no_wrap (registry_blocks e st) hsum
  rw [← lv_mem_monitor_walk_eq e st mon_p] at o1 o2 o4 o5
  obtain ⟨mon, hmon, m1, _, m3, m4, _, _, m7, m8⟩ :=
    lv_mem_monitor_builtin_of_total_ne_zero e st mon_p (by rw [o1]; omega)
  rw [← m3, ← m1] at m7 o5
  rw [← m3, ← m4] at m8 o4
  rw [← m1] at o1
  rw [← m3] at o2
  have hmul1 : 100 * mon.free_size < UINT32_MOD := by rw [o2]; exact hmul
  obtain ⟨hq, hu⟩ := used_pct_of_eq mon.free_size mon.total_size hmul1 o5
  obtain ⟨hq2, hf⟩ := frag_pct_of_eq mon.free_biggest_size mon.free_size hmul1 o4
  have hfrag : mon.frag_pct ≤ 100 := by
    rw [m8]
    split
    · rw [hf]; exact Nat.sub_le _ _
    · exact Nat.zero_le _
  refine ⟨mon, hmon, o1, o2, by rw [o1]; exact htotal, o4, o5, Nat.zero_le _, ?_,
    Nat.zero_le _, hfrag, hq, ?_, ?_⟩
  · rw [m7, hu]; exact Nat.sub_le _ _
  · rw [m7, hu]; exact Nat.sub_add_cancel hq
  · intro hpos
    rw [m8, if_pos hpos, hf]
    exact ⟨hq2, Nat.sub_add_cancel hq2⟩

theorem lv_mem_monitor_builtin_bounds_witness :
    0 < sum_sizes (registry_blocks toyEngine toySplit)
      ∧ (lv_mem_monitor_builtin toyEngine toySplit mon_zero).map
          (fun mon => (mon.total_size, mon.free_size, mon.free_biggest_size,
            mon.used_pct, mon.frag_pct))
          = some (320, 128, 64, 60, 50)
      ∧ ∃ mon, lv_mem_monitor_builtin toyEngine toySplit mon_zero = some mon
          ∧ mon.free_biggest_size ≤ mon.free_size ∧ mon.free_size ≤ mon.total_size
          ∧ mon.used_pct ≤ 100 ∧ mon.frag_pct ≤ 100 := by
  obtain ⟨mon, h, _, _, _, h1, h2, _, h3, _, h4, _⟩ :=
    lv_mem_monitor_builtin_bounds toyEngine toySplit mon_zero
      (by decide) (by decide) (by decide)
  exact ⟨by decide, by decide, mon, h, h1, h2, h3, h4⟩

/-- C18: the division by total_size in lv_mem_monitor_builtin has no guard of
its own: the function has a result exactly when the total_size left by the
walk, the 32-bit sum of all enumerated block sizes, is not 0.  Whenever a
registered pool enumerates a block of non-zero size and the 32-bit sum does
not wrap to 0, total_size > 0 and the snapshot is produced; when no
registered pool enumerates a non-zero block (as with an empty registry),
total_size is 0 and the function divides by zero; and, unless the sum wraps
to 0, total_size is 0 exactly in that case. -/
theorem lv_mem_monitor_builtin_division {T : Type} (e : TlsfEngine T) (st : State T)
    (mon_p : lv_mem_monitor_t) :
    (lv_mem_monitor_builtin e st mon_p = none
        ↔ (lv_mem_monitor_walk e st mon_p).total_size = 0)
      ∧ (lv_mem_monitor_walk e st mon_p).total_size
        = sum_sizes (registry_blocks e st) % 2 ^ 32
      ∧ ((∃ b ∈ registry_blocks e st, b.size ≠ 0) →
          sum_sizes (registry_blocks e st) % 2 ^ 32 ≠ 0 →
          ∃ mon, lv_mem_monitor_builtin e st mon_p = some mon ∧ 0 < mon.total_size
            ∧ mon.used_pct = used_pct_of mon.free_size mon.total_size)
      ∧ ((∀ b ∈ registry_blocks e st, b.size = 0) →
          (lv_mem_monitor_walk e st mon_p).total_size = 0
            ∧ lv_mem_monitor_builtin e st mon_p = none)
      ∧ (st.pool_ll = [] → lv_mem_monitor_builtin e st mon_p = none)
      ∧ ((sum_sizes (registry_blocks e st) % 2 ^ 32 = 0 →
            sum_sizes (registry_blocks e st) = 0) →
          ((lv_mem_monitor_walk e st mon_p).total_size = 0
            ↔ ∀ b ∈ registry_blocks e st, b.size = 0))
      ∧ ((lv_mem_monitor_walk e st mon_p).total_size = 0
          ↔ ((∀ b ∈ registry_blocks e st, b.size = 0)
              ∨ (sum_sizes (registry_blocks e st) ≠ 0
                  ∧ sum_sizes (registry_blocks e st) % 2 ^ 32 = 0))) := by
  have hnone := lv_mem_monitor_builtin_none_iff e st mon_p
  have htot : (lv_mem_monitor_walk e st mon_p).total_size
      = sum_sizes (registry_blocks e st) % 2 ^ 32 :=
    lv_mem_monitor_walk_total_size e st mon_p
  have hzero := sum_sizes_eq_zero_iff (registry_blocks e st)
  have hall : (∀ b ∈ registry_blocks e st, b.size = 0) →
      (lv_mem_monitor_walk e st mon_p).total_size = 0 := by
    intro h
    rw [htot, hzero.mpr h, Nat.zero_mod]
  refine ⟨hnone, htot, ?_, ?_, ?_, ?_, ?_⟩
  · intro _ hne
    obtain ⟨mon, hmon, m1, _, m3, _, _, _, m7, _⟩ :=
      lv_mem_monitor_builtin_of_total_ne_zero e st mon_p (by rw [htot]; exact hne)
    refine ⟨mon, hmon, ?_, ?_⟩
    · rw [m1, htot]; omega
    · rw [m7, m1, m3]
  · intro h
    exact ⟨hall h, hnone.mpr (hall h)⟩
  · intro hempty
    apply hnone.mpr
    apply hall
    intro b hb
    simp [registry_blocks, State.pools, hempty] at hb
  · intro hwrap
    constructor
    · intro h0
      rw [htot] at h0
      exact hzero.mp (hwrap h0)
    · exact hall
  · constructor
    · intro h0
      rw [htot] at h0
      by_cases hs : sum_sizes (registry_blocks e st) = 0
      · exact Or.inl (hzero.mp hs)
      · exact Or.inr ⟨hs, h0⟩
    · rintro (h | ⟨_, h⟩)
      · exact hall h
      · rw [htot]; exact h

theorem lv_mem_monitor_builtin_division_witness :
    toyNoPool.pool_ll = []
      ∧ lv_mem_monitor_builtin toyEngine toyNoPool mon_zero = none
      ∧ (∃ b ∈ registry_blocks toyEngine toyInit, b.size ≠ 0)
      ∧ ∃ mon, lv_mem_monitor_builtin toyEngine toyInit mon_zero = some mon
          ∧ 0 < mon.total_size := by
  have hb : ∃ b ∈ registry_blocks toyEngine toyInit, b.size ≠ 0 :=
    ⟨{ ptr := 4096, size := 1024, used := 0 }, by decide, by decide⟩
  obtain ⟨mon, h, hpos, _⟩ :=
    (lv_mem_monitor_builtin_division toyEngine toyInit mon_zero).2.2.1 hb (by decide)
  exact ⟨by decide,
    (lv_mem_monitor_builtin_division toyEngine toyNoPool mon_zero).2.2.2.2.1 (by decide),
    hb, mon, h, hpos⟩

/-- C19: the accounting of an allocation followed by the release of the same
pointer is asymmetric, the requested size n is added and the size s reported
by the engine is taken off.  For every state with cur_used = c and max_used =
m, every n with c + n below 2^32 whose allocation succeeds, and every
reclaimed size s >= n, cur_used ends at max(0, c + n - s), which is at most c
and strictly less than c when s > n and c > 0, and max_used ends at
max(m, c + n). -/
theorem malloc_free_round_trip {T : Type} (e : TlsfEngine T) (st : State T)
    (n : Nat) (hno : st.cur_used + n < 2 ^ 32)
    (hok : (e.lv_tlsf_malloc st.tlsf n).2 ≠ 0)
    (hs : n ≤ (e.lv_tlsf_free (lv_malloc_builtin e st n).1.tlsf
      (lv_malloc_builtin e st n).2).2) :
    (lv_malloc_builtin e st n).2 ≠ 0
      ∧ (lv_malloc_builtin e st n).1.cur_used = st.cur_used + n
      ∧ ((lv_free_builtin e (lv_malloc_builtin e st n).1
            (lv_malloc_builtin e st n).2).cur_used : Int)
          = max 0 ((st.cur_used : Int) + (n : Int)
              - ((e.lv_tlsf_free (lv_malloc_builtin e st n).1.tlsf
                  (lv_malloc_builtin e st n).2).2 : Int))
      ∧ (lv_free_builtin e (lv_malloc_builtin e st n).1
            (lv_malloc_builtin e st n).2).cur_used ≤ st.cur_used
      ∧ (n < (e.lv_tlsf_free (lv_malloc_builtin e st n).1.tlsf
              (lv_malloc_builtin e st n).2).2 → 0 < st.cur_used →
          (lv_free_builtin e (lv_malloc_builtin e st n).1
            (lv_malloc_builtin e st n).2).cur_used < st.cur_used)
      ∧ (lv_free_builtin e (lv_malloc_builtin e st n).1
            (lv_malloc_builtin e st n).2).max_used = max st.max_used (st.cur_used + n) := by
  have hcur : (lv_malloc_builtin e st n).1.cur_used = st.cur_used + n := by
    rw [lv_malloc_builtin_cur_used]
    exact Nat.mod_eq_of_lt hno
  have hmax : (lv_malloc_builtin e st n).1.max_used = max st.max_used (st.cur_used + n) := by
    have hno1 : st.cur_used + n < UINT32_MOD := hno
    rw [lv_malloc_builtin_max_used, Nat.mod_eq_of_lt hno1, max_comm]
  refine ⟨hok, hcur, ?_, ?_, ?_, ?_⟩
  · rw [lv_free_builtin_cur_used, hcur]
    omega
  · rw [lv_free_builtin_cur_used, hcur]
    omega
  · intro hlt hpos
    rw [lv_free_builtin_cur_used, hcur]
    omega
  · rw [lv_free_builtin_max_used, hmax]

theorem malloc_free_round_trip_witness :
    toyAlloc100.cur_used = 124 ∧ toyAlloc100.max_used = 124
      ∧ (lv_malloc_builtin toyEngineRounding toyAlloc100 50).2 = 4236
      ∧ (toyEngineRounding.lv_tlsf_free
            (lv_malloc_builtin toyEngineRounding toyAlloc100 50).1.tlsf
            (lv_malloc_builtin toyEngineRounding toyAlloc100 50).2).2 = 56
      ∧ (lv_free_builtin toyEngineRounding
            (lv_malloc_builtin toyEngineRounding toyAlloc100 50).1
            (lv_malloc_builtin toyEngineRounding toyAlloc100 50).2).cur_used = 118
      ∧ (lv_free_builtin toyEngineRounding
            (lv_malloc_builtin toyEngineRounding toyAlloc100 50).1
            (lv_malloc_builtin toyEngineRounding toyAlloc100 50).2).cur_used
          ≤ toyAlloc100.cur_used
      ∧ (lv_free_builtin toyEngineRounding
            (lv_malloc_builtin toyEngineRounding toyAlloc100 50).1
            (lv_malloc_builtin toyEngineRounding toyAlloc100 50).2).max_used
          = max toyAlloc100.max_used (toyAlloc100.cur_used + 50) := by
  have h := malloc_free_round_trip toyEngineRounding toyAlloc100 50
    (by decide) (by decide) (by decide)
  exact ⟨by decide, by decide, by decide, by decide, by decide, h.2.2.2.1, h.2.2.2.2.2⟩

end LvMallocBuiltin
